import Mathlib

/-!
Shallow embedding of the release-action core (release manager, GitHub and
Gitea providers, HTTP request executors) for checking the specification
claims. Definitions are translated from the TypeScript sources:
src/release.ts, src/platform/provider.ts, src/platform/github.ts, and the
Gitea provider. JavaScript runtime details (truthiness, first-occurrence
string replace, object-spread merge, Set-based dedup, parseInt) are
modelled by small helper functions.
-/

namespace GAR

/-- JS truthiness of a possibly-undefined string: undefined and the empty
string are falsy. -/
def jsTruthy (o : Option String) : Bool :=
  match o with
  | none => false
  | some s => s != ""

/-- JS truthiness of a plain string value. -/
def jsTruthyStr (s : String) : Bool := s != ""

/-- JS `a || b` on possibly-undefined strings. -/
def jsOrOpt (a b : Option String) : Option String :=
  if jsTruthy a then a else b

/-- JS `opt || dflt` producing a string. -/
def jsStrGetD (o : Option String) (d : String) : String :=
  match o with
  | none => d
  | some s => if s = "" then d else s

/-- Occurrence of a pattern as a contiguous run of a character list. -/
def listHasInfix (pat : List Char) : List Char → Bool
  | [] => pat.isEmpty
  | c :: rest => pat.isPrefixOf (c :: rest) || listHasInfix pat rest

/-- JS `String.prototype.includes` used for the 404-substring check on error
messages. -/
def strContains (s pat : String) : Bool :=
  listHasInfix pat.data s.data

/-- Replacement of the first occurrence of a pattern in a character list. -/
def replaceFirstList (pat repl : List Char) : List Char → List Char
  | [] => []
  | c :: rest =>
    if pat.isPrefixOf (c :: rest) then repl ++ (c :: rest).drop pat.length
    else c :: replaceFirstList pat repl rest

/-- JS `String.prototype.replace` with a string pattern replaces only the
first occurrence. -/
def jsReplaceFirst (s pat repl : String) : String :=
  if pat.data.isEmpty then String.mk (repl.data ++ s.data)
  else String.mk (replaceFirstList pat.data repl.data s.data)

/-- Splitting a character list on a separator character. -/
def splitCharList (sep : Char) : List Char → List (List Char)
  | [] => [[]]
  | c :: rest =>
    match splitCharList sep rest with
    | [] => if c = sep then [[], []] else [[c]]
    | h :: t => if c = sep then [] :: h :: t else (c :: h) :: t

/-- JS `String.prototype.split` with a one-character separator. -/
def strSplitChar (sep : Char) (s : String) : List String :=
  (splitCharList sep s.data).map String.mk

/-- JS `String.prototype.trim`. -/
def strTrim (s : String) : String :=
  String.mk (((s.data.dropWhile Char.isWhitespace).reverse.dropWhile Char.isWhitespace).reverse)

/-- JS `String.prototype.startsWith`. -/
def strStartsWith (s pre : String) : Bool :=
  pre.data.isPrefixOf s.data

/-- Node `path.basename` for forward-slash paths. -/
def basename (p : String) : String :=
  (strSplitChar '/' p).getLastD p

/-- First-occurrence deduplication, the order produced by
`[...new Set(list)]` in JS. The `seen` accumulator holds elements already
emitted. -/
def dedupAux (seen : List String) : List String → List String
  | [] => []
  | x :: xs => if x ∈ seen then dedupAux seen xs else x :: dedupAux (x :: seen) xs

/-- JS `[...new Set(list)]`. -/
def dedupFirst (l : List String) : List String := dedupAux [] l

/-- Boolean string-list membership, the `Set.has` check of the
replace-by-name filter. -/
def memStr (x : String) : List String → Bool
  | [] => false
  | y :: ys => x == y || memStr x ys

/-- Setting a key on a JS object: an existing key keeps its position and is
overwritten, a new key is appended. -/
def recordSet (r : List (String × String)) (k v : String) : List (String × String) :=
  if r.any (fun kv => kv.1 = k) then
    r.map (fun kv => if kv.1 = k then (k, v) else kv)
  else
    r ++ [(k, v)]

/-- JS object spread `\x7b ...a, ...b \x7d` for string records. -/
def recordMerge (a b : List (String × String)) : List (String × String) :=
  b.foldl (fun acc kv => recordSet acc kv.1 kv.2) a

/-- JS `parseInt(s, 10)`: trims, consumes an optional sign and then the
longest digit run; no digits yields NaN (modelled as `none`). -/
def jsParseInt (s : String) : Option Int :=
  let t := ((s.data.dropWhile Char.isWhitespace).reverse.dropWhile Char.isWhitespace).reverse
  let (neg, rest) :=
    match t with
    | '-' :: r => (true, r)
    | '+' :: r => (false, r)
    | r => (false, r)
  let digits := rest.takeWhile Char.isDigit
  if digits.isEmpty then none
  else
    let n : Nat := digits.foldl (fun acc c => acc * 10 + (c.toNat - 48)) 0
    some (if neg then -(n : Int) else (n : Int))

/-! ## Data model (src/types.ts) -/

/-- ReleaseConfig from src/types.ts; optional fields are `Option`. -/
structure ReleaseConfig where
  tag : String
  name : Option String := none
  body : Option String := none
  draft : Option Bool := none
  prerelease : Option Bool := none
  commit : Option String := none
  owner : Option String := none
  repo : Option String := none
deriving DecidableEq, Repr

/-- ReleaseResult from src/types.ts. The `assets` record is an assoc list in
JS object key order. -/
structure ReleaseResult where
  id : String
  html_url : String
  upload_url : String
  tarball_url : Option String := none
  zipball_url : Option String := none
  assets : List (String × String) := []
  draft : Option Bool := none
  prerelease : Option Bool := none
deriving DecidableEq, Repr

/-- AssetConfig from src/types.ts. -/
structure AssetConfig where
  path : String
  contentType : Option String := none
  name : Option String := none
deriving DecidableEq, Repr

/-- ActionInputs from src/types.ts (the fields the core logic reads).
Exactly six omit flags exist in the source: name and body each have an
always-flag and a during-update flag, draft and prerelease only have
during-update flags. -/
structure ActionInputs where
  tag : String := ""
  name : Option String := none
  body : Option String := none
  bodyFile : Option String := none
  draft : Bool := false
  prerelease : Bool := false
  commit : Option String := none
  artifacts : Option String := none
  artifactContentType : Option String := none
  replacesArtifacts : Bool := false
  removeArtifacts : Bool := false
  artifactErrorsFailBuild : Bool := false
  allowUpdates : Bool := false
  skipIfReleaseExists : Bool := false
  updateOnlyUnreleased : Bool := false
  generateReleaseNotes : Bool := false
  generateReleaseNotesPreviousTag : Option String := none
  owner : Option String := none
  repo : Option String := none
  omitBody : Bool := false
  omitBodyDuringUpdate : Bool := false
  omitDraftDuringUpdate : Bool := false
  omitName : Bool := false
  omitNameDuringUpdate : Bool := false
  omitPrereleaseDuringUpdate : Bool := false
deriving DecidableEq, Repr

/-- The process environment variables the core reads. -/
structure Env where
  GITHUB_REF : Option String := none
  GITEA_REF : Option String := none
  GITHUB_SHA : Option String := none
  GITEA_SHA : Option String := none
  GITEA_RELEASE_LOOKUP_MAX_RETRIES : Option String := none
  GITEA_RELEASE_LOOKUP_BASE_DELAY_MS : Option String := none
  GITEA_RELEASE_LOOKUP_MAX_DELAY_MS : Option String := none
deriving DecidableEq, Repr

/-- Local filesystem oracle for fs.existsSync / statSync().isFile() /
readFileSync. -/
structure FileSystem where
  existsSync : String → Bool
  isFile : String → Bool
  readFile : String → String

/-! ## Release payload bodies

A serialized JSON request body is modelled as the key/value list that
`JSON.stringify` walks, so a field is in the outgoing payload iff its key is
in the list. -/

/-- Minimal JSON value model for request bodies. -/
inductive JVal where
  | str (s : String)
  | bool (b : Bool)

/-- Keys of a serialized body. -/
def bodyKeys (l : List (String × JVal)) : List String := l.map (·.1)

/-- Request body built by GitHubProvider.createRelease (github.ts:42-64).
Every field is assigned a defined value (`config.name || config.tag`,
`config.body || ''`, `config.draft || false`, `config.prerelease || false`),
so the remove-undefined-fields loop deletes nothing and all six keys are
always serialized. -/
def githubCreateReleaseBody (c : ReleaseConfig) : List (String × JVal) :=
  [("tag_name", .str c.tag),
   ("name", .str (jsStrGetD c.name c.tag)),
   ("body", .str (jsStrGetD c.body "")),
   ("draft", .bool (c.draft.getD false)),
   ("prerelease", .bool (c.prerelease.getD false)),
   ("generate_release_notes", .bool false)]

/-- Request body built by GitHubProvider.updateRelease (github.ts:100-118):
only fields that are not undefined are assigned. -/
def githubUpdateReleaseBody (c : ReleaseConfig) : List (String × JVal) :=
  (match c.name with | some s => [("name", JVal.str s)] | none => []) ++
  (match c.body with | some s => [("body", JVal.str s)] | none => []) ++
  (match c.draft with | some b => [("draft", JVal.bool b)] | none => []) ++
  (match c.prerelease with | some b => [("prerelease", JVal.bool b)] | none => [])

/-- Request body built by GiteaProvider.createRelease (same construction as
GitHub minus the generate_release_notes flag). -/
def giteaCreateReleaseBody (c : ReleaseConfig) : List (String × JVal) :=
  [("tag_name", .str c.tag),
   ("name", .str (jsStrGetD c.name c.tag)),
   ("body", .str (jsStrGetD c.body "")),
   ("draft", .bool (c.draft.getD false)),
   ("prerelease", .bool (c.prerelease.getD false))]

/-- Request body built by GiteaProvider.updateRelease (same construction as
the GitHub update body). -/
def giteaUpdateReleaseBody (c : ReleaseConfig) : List (String × JVal) :=
  githubUpdateReleaseBody c

/-! ## ReleaseManager.prepareReleaseConfig and getReleaseBody
(release.ts:112-178) -/

/-- getReleaseBody (release.ts:165-178): body file wins over inline body; a
missing body file throws. -/
def getReleaseBody (fs : FileSystem) (cfg : ActionInputs) : Except String String :=
  if jsTruthy cfg.bodyFile then
    let f := cfg.bodyFile.getD ""
    if fs.existsSync f then .ok (strTrim (fs.readFile f))
    else .error ("Body file not found: " ++ f)
  else if jsTruthy cfg.body then .ok (strTrim (cfg.body.getD ""))
  else .ok ""

/-- prepareReleaseConfig (release.ts:112-160). Each during-update omit flag
is consulted only when an existing release was found and allowUpdates is
set; omitName/omitBody are consulted unconditionally; draft and prerelease
have no always-omit flag and are otherwise always set. -/
def prepareReleaseConfig (fs : FileSystem) (cfg : ActionInputs) (tag : String)
    (existing : Option ReleaseResult) : Except String ReleaseConfig :=
  let name : Option String :=
    if cfg.omitName then none
    else if existing.isSome && cfg.allowUpdates && cfg.omitNameDuringUpdate then none
    else if jsTruthy cfg.name then cfg.name
    else none
  let bodyE : Except String (Option String) :=
    if cfg.omitBody then .ok none
    else if existing.isSome && cfg.allowUpdates && cfg.omitBodyDuringUpdate then .ok none
    else (getReleaseBody fs cfg).map some
  match bodyE with
  | .error e => .error e
  | .ok b =>
    .ok { tag := tag
          name := name
          body := b
          draft :=
            if existing.isSome && cfg.allowUpdates && cfg.omitDraftDuringUpdate then none
            else some cfg.draft
          prerelease :=
            if existing.isSome && cfg.allowUpdates && cfg.omitPrereleaseDuringUpdate then none
            else some cfg.prerelease
          commit := none
          owner := if jsTruthy cfg.owner then cfg.owner else none
          repo := if jsTruthy cfg.repo then cfg.repo else none }

/-! ## Release manager (src/release.ts) as a trace-producing function

The provider is an oracle record of pure functions (one deterministic
response per call shape; the manager never repeats a call with identical
arguments in one run except through distinct code paths, which the claims
do not distinguish). Every provider call and every published output is
recorded as an event, in program order. -/

/-- One asset as returned by listAssets. -/
structure AssetInfo where
  id : String
  name : String
  url : String
deriving DecidableEq, Repr

/-- A provider call issued by the manager. -/
inductive ProviderCall where
  | getReleaseByTag (tag : String)
  | createTag (tag commit message : String)
  | generateNotes (tag : String) (previousTag : Option String)
  | createRelease (cfg : ReleaseConfig)
  | updateRelease (id : String) (cfg : ReleaseConfig)
  | listAssets (id : String)
  | deleteAsset (id : String)
  | uploadAsset (releaseId uploadUrl : String) (asset : AssetConfig)
deriving DecidableEq, Repr

/-- A value published to the output sink. -/
inductive OutVal where
  | str (s : String)
  | record (assets : List (String × String))
deriving DecidableEq, Repr

/-- An observable event of one manager run. -/
inductive Event where
  | call (c : ProviderCall)
  | output (key : String) (v : OutVal)
deriving DecidableEq, Repr

/-- Provider oracle: the deterministic responses of the backend for this
run. Errors are JS Error messages. -/
structure Provider where
  getReleaseByTag : String → Except String (Option ReleaseResult)
  createTag : String → String → String → Except String Unit
  generateReleaseNotes : String → Option String → Except String String
  createRelease : ReleaseConfig → Except String ReleaseResult
  updateRelease : String → ReleaseConfig → Except String ReleaseResult
  listAssets : String → Except String (List AssetInfo)
  deleteAsset : String → Except String Unit
  uploadAsset : String → String → AssetConfig → Except String String

/-- Glob expansion oracle (the glob library call for one pattern). -/
def GlobFn := String → Except String (List String)

/-- Expansion of one comma-separated artifact pattern (release.ts:193-204):
on a glob error the pattern is retried as a literal path if it exists. -/
def expandOne (g : GlobFn) (fs : FileSystem) (pat : String) : List String :=
  match g pat with
  | .ok ms => ms
  | .error _ => if fs.existsSync pat then [pat] else []

/-- Full expansion of the artifacts specification (release.ts:188-204):
split on commas, trim, expand each pattern. -/
def expandArtifactPaths (g : GlobFn) (fs : FileSystem) (artifacts : String) : List String :=
  ((strSplitChar ',' artifacts).map strTrim).foldl (fun acc pat => acc ++ expandOne g fs pat) []

/-- The delete loop over listed assets (release.ts:217-227 and the filtered
variant at 233-245): one delete attempt per asset; an error aborts when
artifactErrorsFailBuild is set and is otherwise logged and skipped. -/
def deleteAllLoop (p : Provider) (failBuild : Bool) :
    List AssetInfo → (Except String Unit) × List Event
  | [] => (.ok (), [])
  | a :: rest =>
    let ev := Event.call (.deleteAsset a.id)
    match p.deleteAsset a.id with
    | .ok _ =>
      let (r, tr) := deleteAllLoop p failBuild rest
      (r, ev :: tr)
    | .error e =>
      if failBuild then (.error e, [ev])
      else
        let (r, tr) := deleteAllLoop p failBuild rest
        (r, ev :: tr)

/-- The upload loop (release.ts:249-293). `acc` is the uploadedAssets
object. File-check failures and upload errors abort when
artifactErrorsFailBuild is set and are otherwise skipped. -/
def uploadLoop (p : Provider) (fs : FileSystem) (failBuild : Bool)
    (ct : Option String) (relId upUrl : String)
    (acc : List (String × String)) :
    List String → (Except String (List (String × String))) × List Event
  | [] => (.ok acc, [])
  | q :: rest =>
    if fs.existsSync q = false then
      if failBuild then (.error ("Asset file not found: " ++ q), [])
      else uploadLoop p fs failBuild ct relId upUrl acc rest
    else if fs.isFile q = false then
      if failBuild then (.error ("Asset path is not a file: " ++ q), [])
      else uploadLoop p fs failBuild ct relId upUrl acc rest
    else
      let a : AssetConfig := { path := q, contentType := ct, name := some (basename q) }
      let ev := Event.call (.uploadAsset relId upUrl a)
      match p.uploadAsset relId upUrl a with
      | .error e =>
        if failBuild then (.error e, [ev])
        else
          let (r, tr) := uploadLoop p fs failBuild ct relId upUrl acc rest
          (r, ev :: tr)
      | .ok url =>
        let (r, tr) := uploadLoop p fs failBuild ct relId upUrl (recordSet acc (basename q) url) rest
        (r, ev :: tr)

/-- handleAssets (release.ts:183-297): expand and dedup paths, run the
remove-all or replace-by-name delete phase (remove-all wins when both
policies are set), upload each unique path, and merge the uploaded map into
the release assets. -/
def handleAssetsRun (p : Provider) (fs : FileSystem) (g : GlobFn)
    (cfg : ActionInputs) (release : ReleaseResult) :
    (Except String ReleaseResult) × List Event :=
  if jsTruthy cfg.artifacts = false then (.ok release, [])
  else
    let uniquePaths := dedupFirst (expandArtifactPaths g fs (cfg.artifacts.getD ""))
    if uniquePaths = [] then (.ok release, [])
    else
      let uploadPhase : List Event → (Except String ReleaseResult) × List Event :=
        fun pre =>
          match uploadLoop p fs cfg.artifactErrorsFailBuild cfg.artifactContentType
              release.id release.upload_url [] uniquePaths with
          | (.error e, tr) => (.error e, pre ++ tr)
          | (.ok uploaded, tr) =>
            (.ok { release with assets := recordMerge release.assets uploaded }, pre ++ tr)
      if cfg.removeArtifacts then
        let lev := Event.call (.listAssets release.id)
        match p.listAssets release.id with
        | .error e => (.error e, [lev])
        | .ok assets =>
          match deleteAllLoop p cfg.artifactErrorsFailBuild assets with
          | (.error e, tr) => (.error e, lev :: tr)
          | (.ok _, tr) => uploadPhase (lev :: tr)
      else if cfg.replacesArtifacts then
        let lev := Event.call (.listAssets release.id)
        match p.listAssets release.id with
        | .error e => (.error e, [lev])
        | .ok assets =>
          let names := uniquePaths.map basename
          match deleteAllLoop p cfg.artifactErrorsFailBuild
              (assets.filter (fun a => memStr a.name names)) with
          | (.error e, tr) => (.error e, lev :: tr)
          | (.ok _, tr) => uploadPhase (lev :: tr)
      else uploadPhase []

/-- getTag (release.ts:95-107). -/
def getTag (cfg : ActionInputs) (env : Env) : Except String String :=
  if cfg.tag = "" then
    let ref := jsStrGetD (jsOrOpt env.GITHUB_REF env.GITEA_REF) ""
    if strStartsWith ref "refs/tags/" then .ok (jsReplaceFirst ref "refs/tags/" "")
    else .error "Tag is required. Provide tag input or push a tag to trigger the workflow."
  else .ok cfg.tag

/-- setOutputs (release.ts:303-319) as the list of emitted output events. -/
def setOutputsEvents (r : ReleaseResult) : List Event :=
  [Event.output "id" (.str r.id),
   Event.output "htmlUrl" (.str r.html_url),
   Event.output "uploadUrl" (.str r.upload_url)] ++
  (if jsTruthy r.tarball_url then [Event.output "tarballUrl" (.str (r.tarball_url.getD ""))] else []) ++
  (if jsTruthy r.zipball_url then [Event.output "zipballUrl" (.str (r.zipball_url.getD ""))] else []) ++
  (if r.assets.length > 0 then [Event.output "assets" (.record r.assets)] else [])

/-- The tail of execute after the existing-release lookup (release.ts:38-90):
optional proactive tag creation, payload preparation, best-effort release
notes, create-or-update dispatch, asset handling, outputs. -/
def executeRest (p : Provider) (fs : FileSystem) (g : GlobFn)
    (cfg : ActionInputs) (tag : String) (existing : Option ReleaseResult) :
    (Except String ReleaseResult) × List Event :=
  let (tagStep, tagTr) :=
    if jsTruthy cfg.commit && existing.isNone then
      let c := cfg.commit.getD ""
      let ev := Event.call (.createTag tag c ("Release " ++ tag))
      (p.createTag tag c ("Release " ++ tag), [ev])
    else (.ok (), [])
  match tagStep with
  | .error e => (.error e, tagTr)
  | .ok _ =>
    match prepareReleaseConfig fs cfg tag existing with
    | .error e => (.error e, tagTr)
    | .ok rc0 =>
      let (rc, notesTr) :=
        if cfg.generateReleaseNotes && existing.isNone && !(jsTruthy rc0.body) then
          let ev := Event.call (.generateNotes tag cfg.generateReleaseNotesPreviousTag)
          match p.generateReleaseNotes tag cfg.generateReleaseNotesPreviousTag with
          | .ok notes =>
            (if jsTruthyStr notes then { rc0 with body := some notes } else rc0, [ev])
          | .error _ => (rc0, [ev])
        else (rc0, [])
      let (dispatched, dispTr) :=
        match existing with
        | some ex =>
          if cfg.allowUpdates then
            (p.updateRelease ex.id rc, [Event.call (.updateRelease ex.id rc)])
          else (p.createRelease rc, [Event.call (.createRelease rc)])
        | none => (p.createRelease rc, [Event.call (.createRelease rc)])
      match dispatched with
      | .error e => (.error e, tagTr ++ notesTr ++ dispTr)
      | .ok rel =>
        let (assetStep, assetTr) :=
          if jsTruthy cfg.artifacts then handleAssetsRun p fs g cfg rel
          else (.ok rel, [])
        match assetStep with
        | .error e => (.error e, tagTr ++ notesTr ++ dispTr ++ assetTr)
        | .ok rel2 =>
          (.ok rel2, tagTr ++ notesTr ++ dispTr ++ assetTr ++ setOutputsEvents rel2)

/-- execute (release.ts:25-90): resolve the tag, look up an existing
release, short-circuit when skipIfReleaseExists applies to a found
non-draft release, otherwise run the remaining workflow. -/
def executeRun (p : Provider) (fs : FileSystem) (g : GlobFn) (env : Env)
    (cfg : ActionInputs) : (Except String ReleaseResult) × List Event :=
  match getTag cfg env with
  | .error e => (.error e, [])
  | .ok tag =>
    let tr := [Event.call (.getReleaseByTag tag)]
    match p.getReleaseByTag tag with
    | .error e => (.error e, tr)
    | .ok existing =>
      match existing with
      | some ex =>
        if cfg.skipIfReleaseExists && !(ex.draft.getD false) then (.ok ex, tr)
        else
          let (res, tr2) := executeRest p fs g cfg tag existing
          (res, tr ++ tr2)
      | none =>
        let (res, tr2) := executeRest p fs g cfg tag existing
        (res, tr ++ tr2)

/-! ## GitHub provider: getReleaseByTag (github.ts:153-284)

The HTTP layer is summarised by two oracles: the direct tag-endpoint
response and, per fallback attempt, the releases-list response. Errors are
the message strings thrown by the request executor; not-found detection is
the includes-404 substring check of the source. -/

/-- One asset object in a GitHub or Gitea release response. -/
structure GhAsset where
  id : Nat
  name : String
  browser_download_url : String
deriving DecidableEq, Repr

/-- A release object as returned by the GitHub REST endpoints. -/
structure GhRelease where
  id : Nat
  tag_name : String
  html_url : String
  upload_url : String
  tarball_url : String
  zipball_url : String
  draft : Option Bool := none
  prerelease : Option Bool := none
  assets : List GhAsset := []
deriving DecidableEq, Repr

/-- The assets record built by the forEach loops of getReleaseByTag. -/
def assetsRecord (l : List GhAsset) : List (String × String) :=
  l.foldl (fun acc a => recordSet acc a.name a.browser_download_url) []

/-- Normalisation of a GitHub release response into a ReleaseResult,
stripping the upload-URL template suffix. -/
def ghToResult (d : GhRelease) : ReleaseResult :=
  { id := toString d.id
    html_url := d.html_url
    upload_url := jsReplaceFirst d.upload_url "\x7b?name,label\x7d" ""
    tarball_url := some d.tarball_url
    zipball_url := some d.zipball_url
    assets := assetsRecord d.assets
    draft := d.draft
    prerelease := d.prerelease }

/-- HTTP-level events of one getReleaseByTag call. -/
inductive GhEv where
  | directCall
  | sleep (ms : Nat)
  | listCall
deriving DecidableEq, Repr

/-- Fixed retry bounds of the draft-lookup fallback (github.ts:218-219). -/
def githubMaxRetries : Nat := 3

/-- Fixed inter-attempt delay of the draft-lookup fallback, in ms. -/
def githubRetryDelay : Nat := 1000

/-- The fallback loop (github.ts:221-250): per attempt, sleep (except
before the first), list the releases, scan for the tag. A listing error is
caught by the surrounding try and yields not-found. -/
def ghFallbackLoop (tag : String) (listResp : Nat → Except String (List GhRelease)) :
    Nat → Nat → (Option ReleaseResult) × List GhEv
  | 0, _ => (none, [])
  | fuel + 1, attempt =>
    let pre := if attempt > 0 then [GhEv.sleep githubRetryDelay] else []
    match listResp attempt with
    | .error _ => (none, pre ++ [.listCall])
    | .ok rels =>
      match rels.find? (fun r => r.tag_name == tag) with
      | some r => (some (ghToResult r), pre ++ [.listCall])
      | none =>
        let (res, tr) := ghFallbackLoop tag listResp fuel (attempt + 1)
        (res, pre ++ [.listCall] ++ tr)

/-- getReleaseByTag (github.ts:153-284): direct endpoint first; a 404-class
error triggers the list fallback and final non-discovery yields null; any
other error from the direct endpoint propagates. -/
def githubGetReleaseByTag (tag : String) (direct : Except String GhRelease)
    (listResp : Nat → Except String (List GhRelease)) :
    (Except String (Option ReleaseResult)) × List GhEv :=
  match direct with
  | .ok d => (.ok (some (ghToResult d)), [.directCall])
  | .error msg =>
    if strContains msg "404" then
      let (res, tr) := ghFallbackLoop tag listResp githubMaxRetries 0
      (.ok res, GhEv.directCall :: tr)
    else (.error msg, [.directCall])

/-! ## HTTP request executors (provider.ts:54-80 and the Gitea override)

A response is its status, status text and body text; `ok` is the fetch
2xx predicate. JSON.parse is an oracle `parse` together with the engine
message `jsonErrMsg` raised on invalid input (the real JSON.parse rejects
the empty string). -/

/-- An HTTP response as seen by the executors. -/
structure HttpResp where
  status : Nat
  statusText : String
  bodyText : String
deriving DecidableEq, Repr

/-- fetch Response.ok. -/
def respOk (r : HttpResp) : Bool := 200 ≤ r.status && r.status < 300

/-- The uniform non-2xx error message (provider.ts:72-74). -/
def httpErrMsg (r : HttpResp) : String :=
  "HTTP " ++ toString r.status ++ " " ++ r.statusText ++ ": " ++ r.bodyText

/-- BaseProvider.request (provider.ts:54-80), also the GitHub override
(github.ts:441-467): non-2xx throws the uniform error; data is an empty
object only for status 204, any other body is handed to response.json()
and a parse failure propagates as the engine error, unlabeled. -/
def baseRequest (parse : String → Option (List (String × JVal)))
    (jsonErrMsg : String → String) (r : HttpResp) :
    Except String (List (String × JVal) × Nat) :=
  if respOk r = false then .error (httpErrMsg r)
  else if r.status = 204 then .ok ([], r.status)
  else
    match parse r.bodyText with
    | some v => .ok (v, r.status)
    | none => .error (jsonErrMsg r.bodyText)

/-- GiteaProvider.request (Gitea provider source, lines 514-561): non-2xx
throws the uniform error; a 204 or empty body yields an empty object
without parsing; a non-empty body is parsed and a parse failure is wrapped
in the distinct malformed-response message. -/
def giteaRequest (parse : String → Option (List (String × JVal)))
    (jsonErrMsg : String → String) (r : HttpResp) :
    Except String (List (String × JVal) × Nat) :=
  if respOk r = false then .error (httpErrMsg r)
  else
    let text := if r.status = 204 then "" else r.bodyText
    if text = "" then .ok ([], r.status)
    else
      match parse text with
      | some v => .ok (v, r.status)
      | none => .error ("Failed to parse Gitea JSON response: " ++ jsonErrMsg text)

/-! ## Gitea provider (the self-hosted backend) -/

/-- A release object as returned by the Gitea tag endpoint. -/
structure GtRelease where
  id : Nat
  html_url : String
  upload_url : String
  tarball_url : String
  zipball_url : String
  draft : Option Bool := none
  prerelease : Option Bool := none
  assets : List GhAsset := []
deriving DecidableEq, Repr

/-- Normalisation of a Gitea release response (no upload-URL template to
strip). -/
def gtToResult (d : GtRelease) : ReleaseResult :=
  { id := toString d.id
    html_url := d.html_url
    upload_url := d.upload_url
    tarball_url := some d.tarball_url
    zipball_url := some d.zipball_url
    assets := assetsRecord d.assets
    draft := d.draft
    prerelease := d.prerelease }

/-- GiteaProvider.getReleaseByTag (lines 335-379): direct tag endpoint
only; a 404-class error yields null, any other error propagates. -/
def giteaGetReleaseByTag (direct : Except String GtRelease) :
    Except String (Option ReleaseResult) :=
  match direct with
  | .ok d => .ok (some (gtToResult d))
  | .error msg => if strContains msg "404" then .ok none else .error msg

/-- readEnvNumber (Gitea provider, lines 212-219): an unset or empty
variable, or one with no leading digits, falls back; otherwise
parseInt clamped below at 0. -/
def readEnvNumber (raw : Option String) (fallback : Nat) : Nat :=
  match raw with
  | none => fallback
  | some s =>
    if s = "" then fallback
    else
      match jsParseInt s with
      | none => fallback
      | some i => (max i 0).toNat

/-- Events of the create-confirmation retry loop. -/
inductive RetryEv where
  | sleep (ms : Nat)
  | byTagLookup (attempt : Nat)
  | listScan (attempt : Nat)
deriving DecidableEq, Repr

/-- The loop body of findReleaseByTagWithRetries (lines 190-207): before
each attempt sleep min(base * 2 ^ (attempt - 1), cap), then the direct tag
lookup (errors propagate), then the list scan (its errors are swallowed
into null); stop at the first release found. -/
def giteaRetryLoop (byTag : Nat → Except String (Option ReleaseResult))
    (listScan : Nat → Option ReleaseResult) (base cap : Nat) :
    Nat → Nat → (Except String (Option ReleaseResult)) × List RetryEv
  | 0, _ => (.ok none, [])
  | fuel + 1, attempt =>
    let d := min (base * 2 ^ (attempt - 1)) cap
    let evs := [RetryEv.sleep d, RetryEv.byTagLookup attempt]
    match byTag attempt with
    | .error e => (.error e, evs)
    | .ok (some r) => (.ok (some r), evs)
    | .ok none =>
      match listScan attempt with
      | some r => (.ok (some r), evs ++ [RetryEv.listScan attempt])
      | none =>
        let (res, tr) := giteaRetryLoop byTag listScan base cap fuel (attempt + 1)
        (res, (evs ++ [RetryEv.listScan attempt]) ++ tr)

/-- findReleaseByTagWithRetries (lines 185-210): bounds default to 10
attempts, 500 ms base delay and 8000 ms cap, each overridable through its
environment variable. -/
def findReleaseByTagWithRetries (env : Env)
    (byTag : Nat → Except String (Option ReleaseResult))
    (listScan : Nat → Option ReleaseResult) :
    (Except String (Option ReleaseResult)) × List RetryEv :=
  let maxRetries := readEnvNumber env.GITEA_RELEASE_LOOKUP_MAX_RETRIES 10
  let base := readEnvNumber env.GITEA_RELEASE_LOOKUP_BASE_DELAY_MS 500
  let cap := readEnvNumber env.GITEA_RELEASE_LOOKUP_MAX_DELAY_MS 8000
  giteaRetryLoop byTag listScan base cap maxRetries 1

/-- Create-release response body; an eventually-consistent backend may
return an empty object, modelled by `id = none` (and `id = some 0` is JS
falsy as well). -/
structure GtCreateResp where
  id : Option Nat := none
  html_url : Option String := none
  upload_url : Option String := none
  tarball_url : Option String := none
  zipball_url : Option String := none
  draft : Option Bool := none
  prerelease : Option Bool := none
deriving DecidableEq, Repr

/-- Repository metadata response (default branch lookup). -/
structure GtRepoMeta where
  default_branch : Option String := none
deriving DecidableEq, Repr

/-- Events of GiteaProvider.createRelease. -/
inductive GtEv where
  | tagRefLookup (tag : String)
  | repoLookup
  | branchRefLookup (branch : String)
  | createTagCall (tag sha message : String)
  | postReleaseCall
  | retry (e : RetryEv)
deriving DecidableEq, Repr

/-- Backend oracle for GiteaProvider.createRelease. `byTag` and `listScan`
summarise the per-attempt results of this.getReleaseByTag and
findReleaseInList inside the confirmation retry loop. -/
structure GiteaBackend where
  tagRef : String → Except String Unit
  repoMeta : Except String GtRepoMeta
  branchRef : String → Except String (Option String)
  createTag : String → String → String → Except String Unit
  postRelease : Except String GtCreateResp
  byTag : Nat → Except String (Option ReleaseResult)
  listScan : Nat → Option ReleaseResult

/-- tagExists (lines 80-95): the ref lookup succeeding means the tag
exists; a 404-class error means it does not; other errors propagate. -/
def giteaTagExists (b : GiteaBackend) (tag : String) : Except String Bool :=
  match b.tagRef tag with
  | .ok _ => .ok true
  | .error m => if strContains m "404" then .ok false else .error m

/-- getDefaultBranchSha (lines 48-75): fetch the repository metadata for
the default branch name, then that branch ref for its SHA; a missing
branch name or SHA is a dedicated error. -/
def getDefaultBranchSha (b : GiteaBackend) :
    (Except String String) × List GtEv :=
  match b.repoMeta with
  | .error e => (.error e, [GtEv.repoLookup])
  | .ok meta =>
    if jsTruthy meta.default_branch = false then
      (.error "Could not determine default branch from repository", [GtEv.repoLookup])
    else
      let branch := meta.default_branch.getD ""
      match b.branchRef branch with
      | .error e => (.error e, [GtEv.repoLookup, GtEv.branchRefLookup branch])
      | .ok sha =>
        if jsTruthy sha = false then
          (.error ("Could not get HEAD SHA for branch " ++ branch),
           [GtEv.repoLookup, GtEv.branchRefLookup branch])
        else (.ok (sha.getD ""), [GtEv.repoLookup, GtEv.branchRefLookup branch])

/-- Commit-SHA resolution inside createRelease (lines 108-119): explicit
config commit first, then GITHUB_SHA or GITEA_SHA from the environment,
then the default-branch HEAD. -/
def giteaResolveCommitSha (b : GiteaBackend) (env : Env) (commit : Option String) :
    (Except String String) × List GtEv :=
  if jsTruthy commit then (.ok (commit.getD ""), [])
  else
    let envSha := jsOrOpt env.GITHUB_SHA env.GITEA_SHA
    if jsTruthy envSha then (.ok (envSha.getD ""), [])
    else getDefaultBranchSha b

/-- The explicit created-but-could-not-confirm error (line 166). -/
def giteaConfirmErrMsg : String :=
  "Gitea createRelease returned no body and release could not be fetched by tag after retries."

/-- GiteaProvider.createRelease (lines 100-183): ensure the tag exists
(creating it at the resolved commit first when absent), post the release,
and when the response carries no usable id poll with
findReleaseByTagWithRetries, failing with the explicit confirmation error
when the retries are exhausted. -/
def giteaCreateRelease (b : GiteaBackend) (env : Env) (config : ReleaseConfig) :
    (Except String ReleaseResult) × List GtEv :=
  let t := config.tag
  let tr0 := [GtEv.tagRefLookup t]
  match giteaTagExists b t with
  | .error e => (.error e, tr0)
  | .ok tagAlready =>
    let tagPhase : (Except String Unit) × List GtEv :=
      if tagAlready then (.ok (), [])
      else
        match giteaResolveCommitSha b env config.commit with
        | (.error e, tr) => (.error e, tr)
        | (.ok sha, tr) =>
          match b.createTag t sha ("Release " ++ t) with
          | .error e => (.error e, tr ++ [GtEv.createTagCall t sha ("Release " ++ t)])
          | .ok _ => (.ok (), tr ++ [GtEv.createTagCall t sha ("Release " ++ t)])
    match tagPhase with
    | (.error e, tr) => (.error e, tr0 ++ tr)
    | (.ok _, tr) =>
      let tr1 := tr0 ++ tr ++ [GtEv.postReleaseCall]
      match b.postRelease with
      | .error e => (.error e, tr1)
      | .ok resp =>
        if (resp.id.getD 0) ≠ 0 then
          (.ok { id := toString (resp.id.getD 0)
                 html_url := resp.html_url.getD ""
                 upload_url := resp.upload_url.getD ""
                 tarball_url := resp.tarball_url
                 zipball_url := resp.zipball_url
                 assets := []
                 draft := resp.draft
                 prerelease := resp.prerelease }, tr1)
        else
          match findReleaseByTagWithRetries env b.byTag b.listScan with
          | (.error e, rtr) => (.error e, tr1 ++ rtr.map GtEv.retry)
          | (.ok (some r), rtr) => (.ok r, tr1 ++ rtr.map GtEv.retry)
          | (.ok none, rtr) => (.error giteaConfirmErrMsg, tr1 ++ rtr.map GtEv.retry)

/-! ## Concrete fixtures for witnesses and counterexamples -/

/-- A filesystem with no files. -/
def fs0 : FileSystem := ⟨fun _ => false, fun _ => false, fun _ => ""⟩

/-- A filesystem on which every path is an existing regular file. -/
def fsAll : FileSystem := ⟨fun _ => true, fun _ => true, fun _ => ""⟩

/-- A glob oracle with no matches. -/
def gEmpty : GlobFn := fun _ => .ok []

/-- A glob oracle returning each pattern verbatim. -/
def gIdent : GlobFn := fun pat => .ok [pat]

/-- The empty environment. -/
def envEmpty : Env := {}

/-- Inputs requesting name omission while also configuring a name. -/
def inputsOmitName : ActionInputs :=
  { tag := "v1.0.0", name := some "My Release", omitName := true }

/-- The release config the manager derives from `inputsOmitName` on the
create path. -/
def rcOmitName : ReleaseConfig :=
  { tag := "v1.0.0", name := none, body := some "", draft := some false
    prerelease := some false, commit := none, owner := none, repo := none }

/-- An existing published (non-draft) release. -/
def relExisting : ReleaseResult :=
  { id := "77", html_url := "https://example/releases/tag/v1.0.0"
    upload_url := "https://example/upload/77", assets := [("old.bin", "https://dl/old.bin")]
    draft := some false }

/-- A provider whose lookups find nothing and whose mutations succeed
trivially. -/
def pDummy : Provider :=
  { getReleaseByTag := fun _ => .ok none
    createTag := fun _ _ _ => .ok ()
    generateReleaseNotes := fun _ _ => .ok ""
    createRelease := fun _ => .ok relExisting
    updateRelease := fun _ _ => .ok relExisting
    listAssets := fun _ => .ok []
    deleteAsset := fun _ => .ok ()
    uploadAsset := fun _ _ _ => .ok "https://dl/up" }

/-- A provider that finds `relExisting` for every tag. -/
def pSkip : Provider :=
  { pDummy with getReleaseByTag := fun _ => .ok (some relExisting) }

/-- Inputs enabling the skip-if-exists policy. -/
def cfgSkip : ActionInputs := { tag := "v1.0.0", skipIfReleaseExists := true }

/-- A JSON.parse oracle failing exactly on the empty string. -/
def parse0 : String → Option (List (String × JVal)) :=
  fun s => if s = "" then none else some []

/-- A fixed engine message for JSON.parse failures. -/
def jsonMsg0 : String → String := fun _ => "Unexpected end of JSON input"

/-- A successful 200 response with an empty body. -/
def resp200empty : HttpResp := ⟨200, "OK", ""⟩

/-- A request-executor error message of the not-found class. -/
def msg404 : String := "HTTP 404 Not Found: Not Found"

/-- A request-executor error message of a non-404 class. -/
def msg500 : String := "HTTP 500 Internal Server Error: boom"

/-- A releases-list endpoint that always answers with an empty list. -/
def lrEmpty : Nat → Except String (List GhRelease) := fun _ => .ok []

/-- A per-attempt release lookup that never finds anything. -/
def byTagFail : Nat → Except String (Option ReleaseResult) := fun _ => .ok none

/-- A per-attempt list scan that never finds anything. -/
def listScanFail : Nat → Option ReleaseResult := fun _ => none

/-- An environment overriding the Gitea lookup retry count to 3. -/
def envRetry3 : Env := { GITEA_RELEASE_LOOKUP_MAX_RETRIES := some "3" }

/-- A Gitea backend for a repository where the tag is absent, the default
branch is resolvable, tag creation and the release POST succeed, and the
POST response carries a usable id. -/
def gtBackendFresh : GiteaBackend :=
  { tagRef := fun _ => .error msg404
    repoMeta := .ok { default_branch := some "main" }
    branchRef := fun _ => .ok (some "abc123")
    createTag := fun _ _ _ => .ok ()
    postRelease := .ok { id := some 55, html_url := some "https://gitea/r/55"
                         upload_url := some "https://gitea/r/55/assets" }
    byTag := byTagFail
    listScan := listScanFail }

/-- The fresh-tag backend, but the release POST answers with an empty
body and the confirmation lookups never succeed. -/
def gtBackendEmptyResp : GiteaBackend :=
  { gtBackendFresh with tagRef := fun _ => .ok (), postRelease := .ok {} }

/-- Inputs enabling both asset-removal policies at once. -/
def cfgBothPolicies : ActionInputs :=
  { tag := "v1.0.0", artifacts := some "a.txt,b.txt,a.txt"
    replacesArtifacts := true, removeArtifacts := true }

/-- Two assets listed on the backend release. -/
def assetsListed : List AssetInfo :=
  [⟨"9", "old.bin", "u9"⟩, ⟨"10", "a.txt", "u10"⟩]

/-- A provider listing `assetsListed` for every release. -/
def pAssets : Provider := { pDummy with listAssets := fun _ => .ok assetsListed }

/-- Inputs with an overlapping artifacts specification. -/
def cfgOverlap : ActionInputs :=
  { tag := "v1.0.0", artifacts := some "a.txt, b.txt ,a.txt" }

/-- Inputs with a single artifact path in a subdirectory. -/
def cfgOneAsset : ActionInputs :=
  { tag := "v1.0.0", artifacts := some "dir/a.txt" }

/-- The release produced from `relExisting` by uploading dir/a.txt. -/
def relUploaded : ReleaseResult :=
  { relExisting with
    assets := [("old.bin", "https://dl/old.bin"), ("a.txt", "https://dl/up")] }

/-- The trace of that single-upload run. -/
def trUploaded : List Event :=
  [Event.call (.uploadAsset "77" "https://example/upload/77"
    ⟨"dir/a.txt", none, some "a.txt"⟩)]

/-- Filter selecting the output-sink events of a trace. -/
def outputEvents (tr : List Event) : List Event :=
  tr.filter (fun e => match e with | .output _ _ => true | .call _ => false)

/-- Projection of a trace to the asset ids of its delete calls. -/
def deleteCallIds (tr : List Event) : List String :=
  tr.filterMap (fun e => match e with
    | .call (.deleteAsset i) => some i
    | _ => none)

/-- Projection of a trace to the local paths of its upload calls. -/
def uploadCallPaths (tr : List Event) : List String :=
  tr.filterMap (fun e => match e with
    | .call (.uploadAsset _ _ a) => some a.path
    | _ => none)

/-- The trace of the confirmation retry loop when every attempt fails, one
sleep/lookup/scan triple per attempt. -/
def retryTrace (base cap : Nat) : Nat → Nat → List RetryEv
  | 0, _ => []
  | fuel + 1, attempt =>
    [RetryEv.sleep (min (base * 2 ^ (attempt - 1)) cap),
     RetryEv.byTagLookup attempt, RetryEv.listScan attempt] ++
    retryTrace base cap fuel (attempt + 1)

/-! ## Helper lemmas -/

theorem name_not_in_update (rc : ReleaseConfig) (h : rc.name = none) :
    "name" ∉ bodyKeys (githubUpdateReleaseBody rc) := by
  cases hb : rc.body <;> cases hd : rc.draft <;> cases hp : rc.prerelease <;>
    simp [githubUpdateReleaseBody, bodyKeys, h, hb, hd, hp]

theorem body_not_in_update (rc : ReleaseConfig) (h : rc.body = none) :
    "body" ∉ bodyKeys (githubUpdateReleaseBody rc) := by
  cases hn : rc.name <;> cases hd : rc.draft <;> cases hp : rc.prerelease <;>
    simp [githubUpdateReleaseBody, bodyKeys, h, hn, hd, hp]

theorem draft_not_in_update (rc : ReleaseConfig) (h : rc.draft = none) :
    "draft" ∉ bodyKeys (githubUpdateReleaseBody rc) := by
  cases hn : rc.name <;> cases hb : rc.body <;> cases hp : rc.prerelease <;>
    simp [githubUpdateReleaseBody, bodyKeys, h, hn, hb, hp]

theorem prerelease_not_in_update (rc : ReleaseConfig) (h : rc.prerelease = none) :
    "prerelease" ∉ bodyKeys (githubUpdateReleaseBody rc) := by
  cases hn : rc.name <;> cases hb : rc.body <;> cases hd : rc.draft <;>
    simp [githubUpdateReleaseBody, bodyKeys, h, hn, hb, hd]

theorem dedupAux_nodup_aux (l : List String) :
    ∀ seen, (dedupAux seen l).Nodup ∧ ∀ x ∈ dedupAux seen l, x ∉ seen := by
  induction l with
  | nil => intro seen; simp [dedupAux]
  | cons x xs ih =>
    intro seen
    by_cases hx : x ∈ seen
    · simpa [dedupAux, hx] using ih seen
    · obtain ⟨hnd, hmem⟩ := ih (x :: seen)
      refine ⟨?_, ?_⟩
      · simp only [dedupAux, hx, if_false]
        exact List.nodup_cons.mpr
          ⟨fun hc => (hmem x hc) (List.mem_cons_self x seen), hnd⟩
      · intro y hy
        simp only [dedupAux, hx, if_false, List.mem_cons] at hy
        rcases hy with rfl | hy
        · exact hx
        · exact fun hs => (hmem y hy) (List.mem_cons_of_mem x hs)

theorem dedupFirst_nodup (l : List String) : (dedupFirst l).Nodup :=
  (dedupAux_nodup_aux l []).1

theorem deleteAllLoop_all_ok (p : Provider) (fb : Bool) :
    ∀ assets : List AssetInfo, (∀ a ∈ assets, p.deleteAsset a.id = .ok ()) →
      deleteAllLoop p fb assets =
        (.ok (), assets.map (fun a => Event.call (.deleteAsset a.id))) := by
  intro assets
  induction assets with
  | nil => intro _; simp [deleteAllLoop]
  | cons a rest ih =>
    intro h
    have ha := h a (List.mem_cons_self a rest)
    have hrest := ih (fun b hb => h b (List.mem_cons_of_mem a hb))
    simp [deleteAllLoop, ha, hrest]

theorem uploadCallPaths_cons_delete (i : String) (tr : List Event) :
    uploadCallPaths (Event.call (.deleteAsset i) :: tr) = uploadCallPaths tr := rfl

theorem uploadCallPaths_cons_list (i : String) (tr : List Event) :
    uploadCallPaths (Event.call (.listAssets i) :: tr) = uploadCallPaths tr := rfl

theorem uploadCallPaths_cons_upload (rid uurl : String) (a : AssetConfig)
    (tr : List Event) :
    uploadCallPaths (Event.call (.uploadAsset rid uurl a) :: tr) =
      a.path :: uploadCallPaths tr := rfl

theorem deleteCallIds_cons_delete (i : String) (tr : List Event) :
    deleteCallIds (Event.call (.deleteAsset i) :: tr) = i :: deleteCallIds tr := rfl

theorem deleteCallIds_cons_list (i : String) (tr : List Event) :
    deleteCallIds (Event.call (.listAssets i) :: tr) = deleteCallIds tr := rfl

theorem deleteCallIds_cons_upload (rid uurl : String) (a : AssetConfig)
    (tr : List Event) :
    deleteCallIds (Event.call (.uploadAsset rid uurl a) :: tr) = deleteCallIds tr := rfl

theorem deleteCallIds_append (l1 l2 : List Event) :
    deleteCallIds (l1 ++ l2) = deleteCallIds l1 ++ deleteCallIds l2 := by
  simp [deleteCallIds]

theorem uploadCallPaths_append (l1 l2 : List Event) :
    uploadCallPaths (l1 ++ l2) = uploadCallPaths l1 ++ uploadCallPaths l2 := by
  simp [uploadCallPaths]

theorem deleteCallIds_delete_map (assets : List AssetInfo) :
    deleteCallIds (assets.map (fun a => Event.call (.deleteAsset a.id))) =
      assets.map (fun a => a.id) := by
  induction assets with
  | nil => rfl
  | cons a rest ih =>
    rw [List.map_cons, deleteCallIds_cons_delete, ih, List.map_cons]

theorem deleteAllLoop_no_uploads (p : Provider) (fb : Bool) :
    ∀ assets : List AssetInfo,
      uploadCallPaths (deleteAllLoop p fb assets).2 = [] := by
  intro assets
  induction assets with
  | nil => rfl
  | cons a rest ih =>
    rcases hrec : deleteAllLoop p fb rest with ⟨r, tr⟩
    have ih2 : uploadCallPaths tr = [] := by rw [hrec] at ih; exact ih
    cases hda : p.deleteAsset a.id with
    | ok u =>
      simp only [deleteAllLoop, hda, hrec]
      rw [uploadCallPaths_cons_delete]
      exact ih2
    | error e =>
      cases fb
      · simp only [deleteAllLoop, hda, hrec, Bool.false_eq_true, if_false]
        rw [uploadCallPaths_cons_delete]
        exact ih2
      · simp only [deleteAllLoop, hda, if_true]
        rfl

theorem uploadLoop_no_deletes (p : Provider) (fs : FileSystem) (fb : Bool)
    (ct : Option String) (rid uurl : String) :
    ∀ (paths : List String) (acc : List (String × String)),
      deleteCallIds (uploadLoop p fs fb ct rid uurl acc paths).2 = [] := by
  intro paths
  induction paths with
  | nil => intro acc; rfl
  | cons q rest ih =>
    intro acc
    by_cases he : fs.existsSync q = false
    · cases fb
      · simpa [uploadLoop, he, deleteCallIds] using ih acc
      · simp [uploadLoop, he, deleteCallIds]
    · by_cases hf : fs.isFile q = false
      · cases fb
        · simpa [uploadLoop, he, hf, deleteCallIds] using ih acc
        · simp [uploadLoop, he, hf, deleteCallIds]
      · cases hup : p.uploadAsset rid uurl ⟨q, ct, some (basename q)⟩ with
        | ok url =>
          rcases hrec : uploadLoop p fs fb ct rid uurl (recordSet acc (basename q) url) rest
            with ⟨r, tr⟩
          have ih2 : deleteCallIds tr = [] := by
            have := ih (recordSet acc (basename q) url)
            rw [hrec] at this
            exact this
          simp [uploadLoop, he, hf, hup, hrec, deleteCallIds_cons_upload, ih2]
        | error e =>
          rcases hrec : uploadLoop p fs fb ct rid uurl acc rest with ⟨r, tr⟩
          have ih2 : deleteCallIds tr = [] := by
            have := ih acc
            rw [hrec] at this
            exact this
          cases fb
          · simpa [uploadLoop, he, hf, hup, hrec, deleteCallIds] using ih2
          · simp [uploadLoop, he, hf, hup, deleteCallIds]

theorem uploadLoop_paths_sublist (p : Provider) (fs : FileSystem) (fb : Bool)
    (ct : Option String) (rid uurl : String) :
    ∀ (paths : List String) (acc : List (String × String)),
      List.Sublist (uploadCallPaths (uploadLoop p fs fb ct rid uurl acc paths).2) paths := by
  intro paths
  induction paths with
  | nil => intro acc; exact List.Sublist.refl []
  | cons q rest ih =>
    intro acc
    by_cases he : fs.existsSync q = false
    · cases fb
      · simpa [uploadLoop, he] using (ih acc).cons q
      · simp [uploadLoop, he, uploadCallPaths]
    · by_cases hf : fs.isFile q = false
      · cases fb
        · simpa [uploadLoop, he, hf] using (ih acc).cons q
        · simp [uploadLoop, he, hf, uploadCallPaths]
      · cases hup : p.uploadAsset rid uurl ⟨q, ct, some (basename q)⟩ with
        | ok url =>
          rcases hrec : uploadLoop p fs fb ct rid uurl (recordSet acc (basename q) url) rest
            with ⟨r, tr⟩
          have ih2 : List.Sublist (uploadCallPaths tr) rest := by
            have := ih (recordSet acc (basename q) url)
            rw [hrec] at this
            exact this
          simpa [uploadLoop, he, hf, hup, hrec, uploadCallPaths_cons_upload]
            using ih2.cons₂ q
        | error e =>
          rcases hrec : uploadLoop p fs fb ct rid uurl acc rest with ⟨r, tr⟩
          have ih2 : List.Sublist (uploadCallPaths tr) rest := by
            have := ih acc
            rw [hrec] at this
            exact this
          cases fb
          · simpa [uploadLoop, he, hf, hup, hrec, uploadCallPaths_cons_upload]
              using ih2.cons₂ q
          · simp [uploadLoop, he, hf, hup, uploadCallPaths_cons_upload, uploadCallPaths]

theorem uploadLoop_all_ok (p : Provider) (fs : FileSystem) (fb : Bool)
    (ct : Option String) (rid uurl : String) :
    ∀ (paths : List String) (acc : List (String × String)),
      (∀ q ∈ paths, fs.existsSync q = true ∧ fs.isFile q = true ∧
        ∃ u, p.uploadAsset rid uurl ⟨q, ct, some (basename q)⟩ = .ok u) →
      uploadCallPaths (uploadLoop p fs fb ct rid uurl acc paths).2 = paths := by
  intro paths
  induction paths with
  | nil => intro acc _; rfl
  | cons q rest ih =>
    intro acc h
    obtain ⟨he, hf, u, hu⟩ := h q (List.mem_cons_self q rest)
    have hrest := fun b hb => h b (List.mem_cons_of_mem q hb)
    rcases hrec : uploadLoop p fs fb ct rid uurl (recordSet acc (basename q) u) rest
      with ⟨r, tr⟩
    have ih2 : uploadCallPaths tr = rest := by
      have := ih (recordSet acc (basename q) u) hrest
      rw [hrec] at this
      exact this
    simp [uploadLoop, he, hf, hu, hrec, uploadCallPaths_cons_upload, ih2]

theorem recordSet_mem (r : List (String × String)) (k v : String)
    (kv : String × String) (h : kv ∈ recordSet r k v) : kv ∈ r ∨ kv = (k, v) := by
  by_cases hk : r.any (fun p => p.1 = k)
  · simp only [recordSet, hk, if_true] at h
    obtain ⟨kv0, hkv0, heq⟩ := List.mem_map.mp h
    by_cases hc : kv0.1 = k
    · right
      rw [← heq]
      simp [hc]
    · left
      rw [← heq]
      simpa [hc] using hkv0
  · simp only [recordSet, hk, if_false] at h
    rcases List.mem_append.mp h with hin | hnew
    · exact Or.inl hin
    · exact Or.inr (by simpa using hnew)

theorem recordMerge_mem (b : List (String × String)) :
    ∀ (a : List (String × String)) (kv : String × String),
      kv ∈ recordMerge a b → kv ∈ a ∨ kv ∈ b := by
  induction b with
  | nil => intro a kv h; exact Or.inl h
  | cons x xs ih =>
    intro a kv h
    have hstep : kv ∈ recordSet a x.1 x.2 ∨ kv ∈ xs := ih (recordSet a x.1 x.2) kv h
    rcases hstep with hset | hxs
    · rcases recordSet_mem a x.1 x.2 kv hset with hin | hnew
      · exact Or.inl hin
      · exact Or.inr (by simp [hnew])
    · exact Or.inr (List.mem_cons_of_mem x hxs)

theorem uploadLoop_ok_mem (p : Provider) (fs : FileSystem) (fb : Bool)
    (ct : Option String) (rid uurl : String) :
    ∀ (paths : List String) (acc res : List (String × String)) (tr : List Event),
      uploadLoop p fs fb ct rid uurl acc paths = (.ok res, tr) →
      ∀ kv ∈ res, kv ∈ acc ∨ ∃ q ∈ paths, fs.existsSync q = true ∧ fs.isFile q = true ∧
        kv.1 = basename q ∧
        p.uploadAsset rid uurl ⟨q, ct, some (basename q)⟩ = .ok kv.2 := by
  intro paths
  induction paths with
  | nil =>
    intro acc res tr h kv hkv
    simp only [uploadLoop, Prod.mk.injEq] at h
    obtain ⟨h1, _⟩ := h
    cases h1
    exact Or.inl hkv
  | cons q rest ih =>
    intro acc res tr h kv hkv
    by_cases he : fs.existsSync q = false
    · cases fb
      · have := ih acc res tr (by simpa [uploadLoop, he] using h) kv hkv
        rcases this with hin | ⟨q0, hq0, rest0⟩
        · exact Or.inl hin
        · exact Or.inr ⟨q0, List.mem_cons_of_mem q hq0, rest0⟩
      · simp [uploadLoop, he] at h
    · by_cases hf : fs.isFile q = false
      · cases fb
        · have := ih acc res tr (by simpa [uploadLoop, he, hf] using h) kv hkv
          rcases this with hin | ⟨q0, hq0, rest0⟩
          · exact Or.inl hin
          · exact Or.inr ⟨q0, List.mem_cons_of_mem q hq0, rest0⟩
        · simp [uploadLoop, he, hf] at h
      · have he1 : fs.existsSync q = true := by
          cases hval : fs.existsSync q
          · exact absurd hval he
          · rfl
        have hf1 : fs.isFile q = true := by
          cases hval : fs.isFile q
          · exact absurd hval hf
          · rfl
        cases hup : p.uploadAsset rid uurl ⟨q, ct, some (basename q)⟩ with
        | ok url =>
          rcases hrec : uploadLoop p fs fb ct rid uurl (recordSet acc (basename q) url) rest
            with ⟨r0, tr0⟩
          have hres : r0 = .ok res := by
            have h2 := h
            simp only [uploadLoop, he, hf, hup, hrec, if_false] at h2
            exact (Prod.mk.injEq _ _ _ _).mp h2 |>.1
          subst hres
          have := ih (recordSet acc (basename q) url) res tr0 hrec kv hkv
          rcases this with hin | ⟨q0, hq0, rest0⟩
          · rcases recordSet_mem acc (basename q) url kv hin with hacc | hnew
            · exact Or.inl hacc
            · refine Or.inr ⟨q, List.mem_cons_self q rest, he1, hf1, ?_, ?_⟩
              · rw [hnew]
              · rw [hnew, hup]
          · exact Or.inr ⟨q0, List.mem_cons_of_mem q hq0, rest0⟩
        | error e =>
          cases fb
          · rcases hrec : uploadLoop p fs false ct rid uurl acc rest with ⟨r0, tr0⟩
            have := ih acc res tr0 (by
              have h2 := h
              simp only [uploadLoop, he, hf, hup, hrec, if_false] at h2
              obtain ⟨h3, _⟩ := (Prod.mk.injEq _ _ _ _).mp h2
              rw [hrec, h3]) kv hkv
            rcases this with hin | ⟨q0, hq0, rest0⟩
            · exact Or.inl hin
            · exact Or.inr ⟨q0, List.mem_cons_of_mem q hq0, rest0⟩
          · simp [uploadLoop, he, hf, hup] at h

theorem giteaRetryLoop_all_fail (byTag : Nat → Except String (Option ReleaseResult))
    (listScan : Nat → Option ReleaseResult) (base cap : Nat)
    (hb : ∀ a, byTag a = .ok none) (hl : ∀ a, listScan a = none) :
    ∀ fuel attempt, giteaRetryLoop byTag listScan base cap fuel attempt =
      (.ok none, retryTrace base cap fuel attempt) := by
  intro fuel
  induction fuel with
  | zero => intro attempt; simp [giteaRetryLoop, retryTrace]
  | succ n ih => intro attempt; simp [giteaRetryLoop, retryTrace, hb, hl, ih]

/-! ## Claim theorems -/

/-- C7 counterexample: on a successful HTTP 200 response with an empty
body, the base request executor does not return an empty object for data
(as the claim states for every executor) but attempts to parse and raises
the raw engine error; the Gitea executor is the one that returns the empty
object. -/
theorem c7_base_executor_empty_body_counterexample :
    baseRequest parse0 jsonMsg0 resp200empty = .error "Unexpected end of JSON input" ∧
    giteaRequest parse0 jsonMsg0 resp200empty = .ok ([], 200) := by
  exact ⟨rfl, rfl⟩

/-- C7 (amended): for every successful response, the Gitea request
executor returns an empty object for data when the status is 204 or the
body is empty, parses a non-empty body as JSON, and raises a parse failure
as the distinct malformed-response error; the base (and GitHub) executor
returns the empty object only for status 204 and otherwise attempts to
parse the body, a parse failure propagating as the raw engine error. -/
theorem c7_request_executor_body_handling
    (parse : String → Option (List (String × JVal)))
    (jsonErrMsg : String → String) (r : HttpResp) (hok : respOk r = true) :
    (r.status = 204 → giteaRequest parse jsonErrMsg r = .ok ([], r.status)) ∧
    (r.bodyText = "" → giteaRequest parse jsonErrMsg r = .ok ([], r.status)) ∧
    (∀ v, r.status ≠ 204 → r.bodyText ≠ "" → parse r.bodyText = some v →
      giteaRequest parse jsonErrMsg r = .ok (v, r.status)) ∧
    (r.status ≠ 204 → r.bodyText ≠ "" → parse r.bodyText = none →
      giteaRequest parse jsonErrMsg r =
        .error ("Failed to parse Gitea JSON response: " ++ jsonErrMsg r.bodyText)) ∧
    (r.status = 204 → baseRequest parse jsonErrMsg r = .ok ([], r.status)) ∧
    (∀ v, r.status ≠ 204 → parse r.bodyText = some v →
      baseRequest parse jsonErrMsg r = .ok (v, r.status)) ∧
    (r.status ≠ 204 → parse r.bodyText = none →
      baseRequest parse jsonErrMsg r = .error (jsonErrMsg r.bodyText)) := by
  refine ⟨?_, ?_, ?_, ?_, ?_, ?_, ?_⟩
  · intro h204
    simp [giteaRequest, hok, h204]
  · intro hbody
    by_cases h204 : r.status = 204 <;> simp [giteaRequest, hok, h204, hbody]
  · intro v h204 hbody hp
    simp [giteaRequest, hok, h204, hbody, hp]
  · intro h204 hbody hp
    simp [giteaRequest, hok, h204, hbody, hp]
  · intro h204
    simp [baseRequest, hok, h204]
  · intro v h204 hp
    simp [baseRequest, hok, h204, hp]
  · intro h204 hp
    simp [baseRequest, hok, h204, hp]

/-- C7 witness: the amended executor behaviour evaluated on concrete
responses. -/
theorem c7_request_executor_body_handling_witness :
    giteaRequest parse0 jsonMsg0 resp200empty = .ok ([], 200) ∧
    baseRequest parse0 jsonMsg0 ⟨204, "No Content", ""⟩ = .ok ([], 204) :=
  ⟨(c7_request_executor_body_handling parse0 jsonMsg0 resp200empty rfl).2.1 rfl,
   (c7_request_executor_body_handling parse0 jsonMsg0 ⟨204, "No Content", ""⟩ rfl).2.2.2.2.1 rfl⟩

/-- C1 counterexample: with the omit-name flag set the manager leaves the
name out of the ReleaseConfig, but on the create path the provider still
sends a name field in the outgoing request body (defaulted to the tag), so
the claimed field absence on create does not hold; draft and prerelease
additionally have no always-omit flag at all in ActionInputs. -/
theorem c1_field_omission_counterexample :
    inputsOmitName.omitName = true ∧
    prepareReleaseConfig fs0 inputsOmitName "v1.0.0" none = .ok rcOmitName ∧
    rcOmitName.name = none ∧
    "name" ∈ bodyKeys (githubCreateReleaseBody rcOmitName) ∧
    (githubCreateReleaseBody rcOmitName).lookup "name" = some (JVal.str "v1.0.0") ∧
    "name" ∈ bodyKeys (giteaCreateReleaseBody rcOmitName) := by
  refine ⟨rfl, rfl, rfl, ?_, rfl, ?_⟩ <;> decide

/-- C1 (amended): name and body each have an always-omit flag and a
during-update omit flag, draft and prerelease only a during-update omit
flag; a set and applicable omit flag leaves the field absent from the
ReleaseConfig handed to the provider, and an absent field is not sent in
the update request body; the create request body, however, always carries
all four fields (with defaults) on both providers. -/
theorem c1_field_omission (fs : FileSystem) (cfg : ActionInputs) (tag : String)
    (ex : Option ReleaseResult) (rc : ReleaseConfig)
    (h : prepareReleaseConfig fs cfg tag ex = .ok rc) :
    (cfg.omitName = true → rc.name = none) ∧
    (ex.isSome = true → cfg.allowUpdates = true → cfg.omitNameDuringUpdate = true →
      rc.name = none) ∧
    (cfg.omitBody = true → rc.body = none) ∧
    (ex.isSome = true → cfg.allowUpdates = true → cfg.omitBodyDuringUpdate = true →
      rc.body = none) ∧
    (ex.isSome = true → cfg.allowUpdates = true → cfg.omitDraftDuringUpdate = true →
      rc.draft = none) ∧
    (ex.isSome = true → cfg.allowUpdates = true → cfg.omitPrereleaseDuringUpdate = true →
      rc.prerelease = none) ∧
    (rc.name = none → "name" ∉ bodyKeys (githubUpdateReleaseBody rc) ∧
      "name" ∉ bodyKeys (giteaUpdateReleaseBody rc)) ∧
    (rc.body = none → "body" ∉ bodyKeys (githubUpdateReleaseBody rc) ∧
      "body" ∉ bodyKeys (giteaUpdateReleaseBody rc)) ∧
    (rc.draft = none → "draft" ∉ bodyKeys (githubUpdateReleaseBody rc) ∧
      "draft" ∉ bodyKeys (giteaUpdateReleaseBody rc)) ∧
    (rc.prerelease = none → "prerelease" ∉ bodyKeys (githubUpdateReleaseBody rc) ∧
      "prerelease" ∉ bodyKeys (giteaUpdateReleaseBody rc)) ∧
    bodyKeys (githubCreateReleaseBody rc) =
      ["tag_name", "name", "body", "draft", "prerelease", "generate_release_notes"] ∧
    bodyKeys (giteaCreateReleaseBody rc) =
      ["tag_name", "name", "body", "draft", "prerelease"] := by
  simp only [prepareReleaseConfig] at h
  split at h
  · exact absurd h (by simp)
  · rename_i b heq
    rw [Except.ok.injEq] at h
    subst h
    refine ⟨?_, ?_, ?_, ?_, ?_, ?_, ?_, ?_, ?_, ?_, rfl, rfl⟩
    · intro h1; simp [h1]
    · intro h1 h2 h3
      cases hcn : cfg.omitName <;> simp [h1, h2, h3, hcn]
    · intro h1
      simp only [h1, if_true] at heq
      cases heq; rfl
    · intro h1 h2 h3
      by_cases hcb : cfg.omitBody
      · simp only [hcb, if_true] at heq; cases heq; rfl
      · simp only [hcb, if_false, h1, h2, h3, Bool.and_self, if_true] at heq
        cases heq; rfl
    · intro h1 h2 h3; simp [h1, h2, h3]
    · intro h1 h2 h3; simp [h1, h2, h3]
    · intro hn
      exact ⟨name_not_in_update _ hn, name_not_in_update _ hn⟩
    · intro hb
      exact ⟨body_not_in_update _ hb, body_not_in_update _ hb⟩
    · intro hd
      exact ⟨draft_not_in_update _ hd, draft_not_in_update _ hd⟩
    · intro hp
      exact ⟨prerelease_not_in_update _ hp, prerelease_not_in_update _ hp⟩

/-- C1 witness: the amended omission behaviour evaluated at the concrete
omit-name configuration. -/
theorem c1_field_omission_witness :
    rcOmitName.name = none ∧ "name" ∉ bodyKeys (githubUpdateReleaseBody rcOmitName) :=
  ⟨(c1_field_omission fs0 inputsOmitName "v1.0.0" none rcOmitName rfl).1 rfl,
   ((c1_field_omission fs0 inputsOmitName "v1.0.0" none rcOmitName rfl).2.2.2.2.2.2.1
     ((c1_field_omission fs0 inputsOmitName "v1.0.0" none rcOmitName rfl).1 rfl)).1⟩

/-- C2: with skipIfReleaseExists enabled, a release found by the initial
tag lookup whose draft flag is false is returned unchanged and the lookup
is the only provider call of the whole run. -/
theorem c2_skip_if_exists_short_circuit (p : Provider) (fs : FileSystem)
    (g : GlobFn) (env : Env) (cfg : ActionInputs) (r : ReleaseResult)
    (htag : cfg.tag ≠ "") (hskip : cfg.skipIfReleaseExists = true)
    (hfound : p.getReleaseByTag cfg.tag = .ok (some r))
    (hdraft : r.draft = some false) :
    executeRun p fs g env cfg = (.ok r, [Event.call (.getReleaseByTag cfg.tag)]) := by
  have hGet : getTag cfg env = .ok cfg.tag := by simp [getTag, htag]
  simp [executeRun, hGet, hfound, hskip, hdraft]

/-- C2 witness: the short-circuit evaluated on a concrete provider and
configuration. -/
theorem c2_skip_if_exists_short_circuit_witness :
    executeRun pSkip fs0 gEmpty envEmpty cfgSkip =
      (.ok relExisting, [Event.call (.getReleaseByTag "v1.0.0")]) :=
  c2_skip_if_exists_short_circuit pSkip fs0 gEmpty envEmpty cfgSkip relExisting
    (by decide) rfl rfl rfl

/-- C10: when the skip-if-exists short-circuit is taken, nothing is
published to the output sink — the run's trace contains no output events
at all. -/
theorem c10_skip_publishes_no_outputs (p : Provider) (fs : FileSystem)
    (g : GlobFn) (env : Env) (cfg : ActionInputs) (r : ReleaseResult)
    (htag : cfg.tag ≠ "") (hskip : cfg.skipIfReleaseExists = true)
    (hfound : p.getReleaseByTag cfg.tag = .ok (some r))
    (hdraft : r.draft = some false) :
    outputEvents (executeRun p fs g env cfg).2 = [] := by
  have hGet : getTag cfg env = .ok cfg.tag := by simp [getTag, htag]
  simp [executeRun, hGet, hfound, hskip, hdraft, outputEvents]

/-- C10 witness: the absence of outputs evaluated on a concrete provider
and configuration. -/
theorem c10_skip_publishes_no_outputs_witness :
    outputEvents (executeRun pSkip fs0 gEmpty envEmpty cfgSkip).2 = [] :=
  c10_skip_publishes_no_outputs pSkip fs0 gEmpty envEmpty cfgSkip relExisting
    (by decide) rfl rfl rfl

/-- C3: getReleaseByTag never throws on absence — a 404-class error from
the direct tag endpoint triggers the GitHub list fallback (three attempts
separated by fixed 1000 ms delays, scanning for the tag) and final
non-discovery, or a listing failure, yields null; a matching list entry is
returned; a non-404 error from the direct endpoint propagates; the Gitea
variant maps a 404-class error directly to null and propagates anything
else. -/
theorem c3_absence_is_not_an_error (tag msg : String)
    (listResp : Nat → Except String (List GhRelease)) :
    (strContains msg "404" = false →
      githubGetReleaseByTag tag (.error msg) listResp = (.error msg, [.directCall])) ∧
    (∀ e, strContains msg "404" = true → listResp 0 = .error e →
      githubGetReleaseByTag tag (.error msg) listResp =
        (.ok none, [.directCall, .listCall])) ∧
    (∀ l0 l1 l2, strContains msg "404" = true →
      listResp 0 = .ok l0 → listResp 1 = .ok l1 → listResp 2 = .ok l2 →
      l0.find? (fun r => r.tag_name == tag) = none →
      l1.find? (fun r => r.tag_name == tag) = none →
      l2.find? (fun r => r.tag_name == tag) = none →
      githubGetReleaseByTag tag (.error msg) listResp =
        (.ok none, [.directCall, .listCall, .sleep 1000, .listCall, .sleep 1000, .listCall])) ∧
    (∀ l0 r, strContains msg "404" = true → listResp 0 = .ok l0 →
      l0.find? (fun r => r.tag_name == tag) = some r →
      githubGetReleaseByTag tag (.error msg) listResp =
        (.ok (some (ghToResult r)), [.directCall, .listCall])) ∧
    (strContains msg "404" = true →
      giteaGetReleaseByTag (.error msg) = .ok none) ∧
    (strContains msg "404" = false →
      giteaGetReleaseByTag (.error msg) = .error msg) := by
  refine ⟨?_, ?_, ?_, ?_, ?_, ?_⟩
  · intro h404
    simp [githubGetReleaseByTag, h404]
  · intro e h404 h0
    simp [githubGetReleaseByTag, h404, githubMaxRetries, githubRetryDelay,
      ghFallbackLoop, h0]
  · intro l0 l1 l2 h404 h0 h1 h2 hf0 hf1 hf2
    simp [githubGetReleaseByTag, h404, githubMaxRetries, githubRetryDelay,
      ghFallbackLoop, h0, h1, h2, hf0, hf1, hf2]
  · intro l0 r h404 h0 hf0
    simp [githubGetReleaseByTag, h404, githubMaxRetries, githubRetryDelay,
      ghFallbackLoop, h0, hf0]
  · intro h404
    simp [giteaGetReleaseByTag, h404]
  · intro h404
    simp [giteaGetReleaseByTag, h404]

/-- C3 witness: the not-found branches evaluated at a concrete 404 message
and an empty backend. -/
theorem c3_absence_is_not_an_error_witness :
    githubGetReleaseByTag "v9.9.9" (.error msg404) lrEmpty =
      (.ok none, [.directCall, .listCall, .sleep 1000, .listCall, .sleep 1000, .listCall]) ∧
    giteaGetReleaseByTag (.error msg404) = .ok none ∧
    giteaGetReleaseByTag (Except.error (α := GtRelease) msg500) = .error msg500 :=
  ⟨(c3_absence_is_not_an_error "v9.9.9" msg404 lrEmpty).2.2.1 [] [] []
      (by decide) rfl rfl rfl rfl rfl rfl,
   (c3_absence_is_not_an_error "v9.9.9" msg404 lrEmpty).2.2.2.2.1 (by decide),
   (c3_absence_is_not_an_error "v9.9.9" msg500 lrEmpty).2.2.2.2.2 (by decide)⟩

/-- C5: when the tag is absent, Gitea createRelease resolves the commit
SHA with precedence explicit config commit, then environment SHA, then the
default-branch HEAD via the chained repository-metadata and branch-ref
lookups, and always creates the tag before posting the release; when the
tag already exists no tag creation happens. -/
theorem c5_gitea_tag_must_exist (b : GiteaBackend) (env : Env) (config : ReleaseConfig) :
    (∀ m branch sha resp n,
      b.tagRef config.tag = .error m → strContains m "404" = true →
      jsTruthy config.commit = false →
      jsTruthy env.GITHUB_SHA = false → jsTruthy env.GITEA_SHA = false →
      b.repoMeta = .ok { default_branch := some branch } → jsTruthy (some branch) = true →
      b.branchRef branch = .ok (some sha) → jsTruthy (some sha) = true →
      b.createTag config.tag sha ("Release " ++ config.tag) = .ok () →
      b.postRelease = .ok resp → resp.id = some n → n ≠ 0 →
      giteaCreateRelease b env config =
        (.ok { id := toString n, html_url := resp.html_url.getD ""
               upload_url := resp.upload_url.getD "", tarball_url := resp.tarball_url
               zipball_url := resp.zipball_url, assets := []
               draft := resp.draft, prerelease := resp.prerelease },
         [.tagRefLookup config.tag, .repoLookup, .branchRefLookup branch,
          .createTagCall config.tag sha ("Release " ++ config.tag), .postReleaseCall])) ∧
    (∀ m c resp n,
      b.tagRef config.tag = .error m → strContains m "404" = true →
      config.commit = some c → jsTruthy (some c) = true →
      b.createTag config.tag c ("Release " ++ config.tag) = .ok () →
      b.postRelease = .ok resp → resp.id = some n → n ≠ 0 →
      (giteaCreateRelease b env config).2 =
        [.tagRefLookup config.tag,
         .createTagCall config.tag c ("Release " ++ config.tag), .postReleaseCall]) ∧
    (∀ m s resp n,
      b.tagRef config.tag = .error m → strContains m "404" = true →
      jsTruthy config.commit = false →
      env.GITHUB_SHA = some s → jsTruthy (some s) = true →
      b.createTag config.tag s ("Release " ++ config.tag) = .ok () →
      b.postRelease = .ok resp → resp.id = some n → n ≠ 0 →
      (giteaCreateRelease b env config).2 =
        [.tagRefLookup config.tag,
         .createTagCall config.tag s ("Release " ++ config.tag), .postReleaseCall]) ∧
    (∀ resp n,
      b.tagRef config.tag = .ok () →
      b.postRelease = .ok resp → resp.id = some n → n ≠ 0 →
      (giteaCreateRelease b env config).2 =
        [.tagRefLookup config.tag, .postReleaseCall]) := by
  refine ⟨?_, ?_, ?_, ?_⟩
  · intro m branch sha resp n hm h404 hc hg hge hrepo hbr href hsha hct hpost hid hn0
    simp [giteaCreateRelease, giteaTagExists, hm, h404, giteaResolveCommitSha, hc,
      jsOrOpt, hg, hge, getDefaultBranchSha, hrepo, hbr, href, hsha, hct, hpost, hid, hn0]
  · intro m c resp n hm h404 hc hct hcreate hpost hid hn0
    simp [giteaCreateRelease, giteaTagExists, hm, h404, giteaResolveCommitSha, hc,
      hct, hcreate, hpost, hid, hn0]
  · intro m s resp n hm h404 hc hgs hst hcreate hpost hid hn0
    simp [giteaCreateRelease, giteaTagExists, hm, h404, giteaResolveCommitSha, hc,
      jsOrOpt, hgs, hst, hcreate, hpost, hid, hn0]
  · intro resp n hok hpost hid hn0
    simp [giteaCreateRelease, giteaTagExists, hok, hpost, hid, hn0]

/-- C5 witness: the default-branch workflow evaluated on a concrete fresh
backend — the tag-creation call precedes the release POST and follows the
two chained lookups. -/
theorem c5_gitea_tag_must_exist_witness :
    giteaCreateRelease gtBackendFresh envEmpty { tag := "v2.0.0" } =
      (.ok { id := "55", html_url := "https://gitea/r/55"
             upload_url := "https://gitea/r/55/assets", tarball_url := none
             zipball_url := none, assets := [], draft := none, prerelease := none },
       [.tagRefLookup "v2.0.0", .repoLookup, .branchRefLookup "main",
        .createTagCall "v2.0.0" "abc123" "Release v2.0.0", .postReleaseCall]) :=
  (c5_gitea_tag_must_exist gtBackendFresh envEmpty { tag := "v2.0.0" }).1
    msg404 "main" "abc123"
    { id := some 55, html_url := some "https://gitea/r/55"
      upload_url := some "https://gitea/r/55/assets" } 55
    rfl (by decide) rfl rfl rfl rfl (by decide) rfl (by decide) rfl rfl rfl (by decide)

/-- C6: the Gitea create-confirmation poll is a bounded retry loop —
default 10 attempts with delays min(500 * 2 ^ (attempt - 1), 8000), both
bounds overridable through environment variables — whose attempts try the
direct tag lookup first and then the full-list scan, returning the first
release found; and a createRelease whose response carries no usable id
fails with the explicit created-but-could-not-confirm error once the
retries are exhausted. -/
theorem c6_gitea_create_confirmation (env : Env)
    (byTag : Nat → Except String (Option ReleaseResult))
    (listScan : Nat → Option ReleaseResult) :
    ((∀ a, byTag a = .ok none) → (∀ a, listScan a = none) →
      findReleaseByTagWithRetries env byTag listScan =
        (.ok none,
         retryTrace (readEnvNumber env.GITEA_RELEASE_LOOKUP_BASE_DELAY_MS 500)
           (readEnvNumber env.GITEA_RELEASE_LOOKUP_MAX_DELAY_MS 8000)
           (readEnvNumber env.GITEA_RELEASE_LOOKUP_MAX_RETRIES 10) 1)) ∧
    (readEnvNumber none 10 = 10 ∧ readEnvNumber none 500 = 500 ∧
      readEnvNumber none 8000 = 8000) ∧
    (∀ s i fallback, s ≠ "" → jsParseInt s = some i → 0 ≤ i →
      readEnvNumber (some s) fallback = i.toNat) ∧
    (∀ r mr, readEnvNumber env.GITEA_RELEASE_LOOKUP_MAX_RETRIES 10 = mr + 1 →
      byTag 1 = .ok (some r) →
      findReleaseByTagWithRetries env byTag listScan =
        (.ok (some r),
         [.sleep (min (readEnvNumber env.GITEA_RELEASE_LOOKUP_BASE_DELAY_MS 500)
             (readEnvNumber env.GITEA_RELEASE_LOOKUP_MAX_DELAY_MS 8000)),
          .byTagLookup 1])) ∧
    (∀ r mr, readEnvNumber env.GITEA_RELEASE_LOOKUP_MAX_RETRIES 10 = mr + 1 →
      byTag 1 = .ok none → listScan 1 = some r →
      findReleaseByTagWithRetries env byTag listScan =
        (.ok (some r),
         [.sleep (min (readEnvNumber env.GITEA_RELEASE_LOOKUP_BASE_DELAY_MS 500)
             (readEnvNumber env.GITEA_RELEASE_LOOKUP_MAX_DELAY_MS 8000)),
          .byTagLookup 1, .listScan 1])) ∧
    (∀ (b : GiteaBackend) (config : ReleaseConfig) (resp : GtCreateResp),
      b.tagRef config.tag = .ok () → b.postRelease = .ok resp →
      resp.id.getD 0 = 0 →
      (∀ a, b.byTag a = .ok none) → (∀ a, b.listScan a = none) →
      (giteaCreateRelease b env config).1 = .error giteaConfirmErrMsg) := by
  refine ⟨?_, ⟨rfl, rfl, rfl⟩, ?_, ?_, ?_, ?_⟩
  · intro hb hl
    simp only [findReleaseByTagWithRetries]
    exact giteaRetryLoop_all_fail byTag listScan _ _ hb hl _ _
  · intro s i fallback hne hp hge
    simp [readEnvNumber, hne, hp, max_eq_left hge]
  · intro r mr hmr hb1
    simp only [findReleaseByTagWithRetries]
    rw [hmr]
    simp [giteaRetryLoop, hb1]
  · intro r mr hmr hb1 hl1
    simp only [findReleaseByTagWithRetries]
    rw [hmr]
    simp [giteaRetryLoop, hb1, hl1]
  · intro b config resp hok hpost hid hb hl
    have hret := giteaRetryLoop_all_fail b.byTag b.listScan
      (readEnvNumber env.GITEA_RELEASE_LOOKUP_BASE_DELAY_MS 500)
      (readEnvNumber env.GITEA_RELEASE_LOOKUP_MAX_DELAY_MS 8000) hb hl
      (readEnvNumber env.GITEA_RELEASE_LOOKUP_MAX_RETRIES 10) 1
    simp [giteaCreateRelease, giteaTagExists, hok, hpost, hid,
      findReleaseByTagWithRetries, hret]

/-- C6 witness: the default bounds produce ten attempts with the
500-doubling-capped-at-8000 delay schedule, the environment override
shortens the schedule, and the concrete empty-response backend fails with
the confirmation error. -/
theorem c6_gitea_create_confirmation_witness :
    findReleaseByTagWithRetries envEmpty byTagFail listScanFail =
      (.ok none,
       [.sleep 500, .byTagLookup 1, .listScan 1,
        .sleep 1000, .byTagLookup 2, .listScan 2,
        .sleep 2000, .byTagLookup 3, .listScan 3,
        .sleep 4000, .byTagLookup 4, .listScan 4,
        .sleep 8000, .byTagLookup 5, .listScan 5,
        .sleep 8000, .byTagLookup 6, .listScan 6,
        .sleep 8000, .byTagLookup 7, .listScan 7,
        .sleep 8000, .byTagLookup 8, .listScan 8,
        .sleep 8000, .byTagLookup 9, .listScan 9,
        .sleep 8000, .byTagLookup 10, .listScan 10]) ∧
    findReleaseByTagWithRetries envRetry3 byTagFail listScanFail =
      (.ok none,
       [.sleep 500, .byTagLookup 1, .listScan 1,
        .sleep 1000, .byTagLookup 2, .listScan 2,
        .sleep 2000, .byTagLookup 3, .listScan 3]) ∧
    (giteaCreateRelease gtBackendEmptyResp envEmpty { tag := "v3.0.0" }).1 =
      .error giteaConfirmErrMsg :=
  ⟨(c6_gitea_create_confirmation envEmpty byTagFail listScanFail).1
      (fun _ => rfl) (fun _ => rfl),
   (c6_gitea_create_confirmation envRetry3 byTagFail listScanFail).1
      (fun _ => rfl) (fun _ => rfl),
   (c6_gitea_create_confirmation envEmpty gtBackendEmptyResp.byTag
       gtBackendEmptyResp.listScan).2.2.2.2.2 gtBackendEmptyResp { tag := "v3.0.0" }
       {} rfl rfl rfl (fun _ => rfl) (fun _ => rfl)⟩

/-- C4: when removeArtifacts and replacesArtifacts are both set, only the
remove-all path runs — the run issues exactly one delete call per listed
asset, in order, and the replace-by-name path adds none, so distinct
listed asset ids are never deleted twice. -/
theorem c4_remove_artifacts_precedence (p : Provider) (fs : FileSystem)
    (g : GlobFn) (cfg : ActionInputs) (release : ReleaseResult)
    (assets : List AssetInfo)
    (hrm : cfg.removeArtifacts = true) (_hrp : cfg.replacesArtifacts = true)
    (hart : jsTruthy cfg.artifacts = true)
    (hne : dedupFirst (expandArtifactPaths g fs (cfg.artifacts.getD "")) ≠ [])
    (hlist : p.listAssets release.id = .ok assets)
    (hdel : ∀ a ∈ assets, p.deleteAsset a.id = .ok ()) :
    deleteCallIds (handleAssetsRun p fs g cfg release).2 =
      assets.map (fun a => a.id) ∧
    ((assets.map (fun a => a.id)).Nodup →
      (deleteCallIds (handleAssetsRun p fs g cfg release).2).Nodup) := by
  have hdl := deleteAllLoop_all_ok p cfg.artifactErrorsFailBuild assets hdel
  rcases hu : uploadLoop p fs cfg.artifactErrorsFailBuild cfg.artifactContentType
      release.id release.upload_url []
      (dedupFirst (expandArtifactPaths g fs (cfg.artifacts.getD ""))) with ⟨ur, utr⟩
  have hnodel : deleteCallIds utr = [] := by
    have := uploadLoop_no_deletes p fs cfg.artifactErrorsFailBuild
      cfg.artifactContentType release.id release.upload_url
      (dedupFirst (expandArtifactPaths g fs (cfg.artifacts.getD ""))) []
    rw [hu] at this
    exact this
  have htrace : (handleAssetsRun p fs g cfg release).2 =
      Event.call (.listAssets release.id) ::
        (assets.map (fun a => Event.call (.deleteAsset a.id)) ++ utr) := by
    cases ur with
    | ok up => simp [handleAssetsRun, hart, hne, hrm, hlist, hdl, hu]
    | error e => simp [handleAssetsRun, hart, hne, hrm, hlist, hdl, hu]
  have hids : deleteCallIds (handleAssetsRun p fs g cfg release).2 =
      assets.map (fun a => a.id) := by
    rw [htrace, deleteCallIds_cons_list, deleteCallIds_append,
      deleteCallIds_delete_map, hnodel, List.append_nil]
  exact ⟨hids, fun hnd => by rw [hids]; exact hnd⟩

/-- C4 witness: the double-policy configuration evaluated on a concrete
provider — one delete per listed asset and no duplicates. -/
theorem c4_remove_artifacts_precedence_witness :
    deleteCallIds (handleAssetsRun pAssets fsAll gIdent cfgBothPolicies relExisting).2 =
      ["9", "10"] ∧
    (deleteCallIds (handleAssetsRun pAssets fsAll gIdent cfgBothPolicies relExisting).2).Nodup :=
  have h := c4_remove_artifacts_precedence pAssets fsAll gIdent cfgBothPolicies
    relExisting assetsListed rfl rfl (by decide) (by decide) rfl (fun _ _ => rfl)
  ⟨h.1, h.2 (by decide)⟩

/-- C8: the expanded artifact paths are deduplicated before uploading — in
every run the upload calls carry pairwise distinct paths, and when no
delete policy interferes and every deduplicated path is an uploadable
regular file, the upload calls are exactly the first occurrences of the
expanded paths, one per distinct path. -/
theorem c8_asset_dedup (p : Provider) (fs : FileSystem) (g : GlobFn)
    (cfg : ActionInputs) (release : ReleaseResult) :
    (uploadCallPaths (handleAssetsRun p fs g cfg release).2).Nodup ∧
    (cfg.removeArtifacts = false → cfg.replacesArtifacts = false →
      jsTruthy cfg.artifacts = true →
      (∀ q ∈ dedupFirst (expandArtifactPaths g fs (cfg.artifacts.getD "")),
        fs.existsSync q = true ∧ fs.isFile q = true ∧
        ∃ u, p.uploadAsset release.id release.upload_url
          ⟨q, cfg.artifactContentType, some (basename q)⟩ = .ok u) →
      uploadCallPaths (handleAssetsRun p fs g cfg release).2 =
        dedupFirst (expandArtifactPaths g fs (cfg.artifacts.getD ""))) := by
  have hnodupU := dedupFirst_nodup (expandArtifactPaths g fs (cfg.artifacts.getD ""))
  rcases hu : uploadLoop p fs cfg.artifactErrorsFailBuild cfg.artifactContentType
      release.id release.upload_url []
      (dedupFirst (expandArtifactPaths g fs (cfg.artifacts.getD ""))) with ⟨ur, utr⟩
  have hsub : List.Sublist (uploadCallPaths utr)
      (dedupFirst (expandArtifactPaths g fs (cfg.artifacts.getD ""))) := by
    have := uploadLoop_paths_sublist p fs cfg.artifactErrorsFailBuild
      cfg.artifactContentType release.id release.upload_url
      (dedupFirst (expandArtifactPaths g fs (cfg.artifacts.getD ""))) []
    rw [hu] at this
    exact this
  have hutr : (uploadCallPaths utr).Nodup := List.Nodup.sublist hsub hnodupU
  constructor
  · by_cases hart : jsTruthy cfg.artifacts = false
    · simp [handleAssetsRun, hart, uploadCallPaths]
    · have hart1 : jsTruthy cfg.artifacts = true := by
        cases hval : jsTruthy cfg.artifacts
        · exact absurd hval hart
        · rfl
      by_cases hU : dedupFirst (expandArtifactPaths g fs (cfg.artifacts.getD "")) = []
      · simp [handleAssetsRun, hart1, hU, uploadCallPaths]
      · by_cases hrm : cfg.removeArtifacts = true
        · cases hl : p.listAssets release.id with
          | error e => simp [handleAssetsRun, hart1, hU, hrm, hl, uploadCallPaths]
          | ok assets =>
            rcases hdl : deleteAllLoop p cfg.artifactErrorsFailBuild assets with ⟨dr, dtr⟩
            have hdup : uploadCallPaths dtr = [] := by
              have := deleteAllLoop_no_uploads p cfg.artifactErrorsFailBuild assets
              rw [hdl] at this
              exact this
            cases dr with
            | error e =>
              simp [handleAssetsRun, hart1, hU, hrm, hl, hdl, uploadCallPaths_cons_list,
                hdup]
            | ok u0 =>
              cases ur with
              | ok up =>
                simpa [handleAssetsRun, hart1, hU, hrm, hl, hdl, hu,
                  uploadCallPaths_cons_list, uploadCallPaths_append, hdup] using hutr
              | error e =>
                simpa [handleAssetsRun, hart1, hU, hrm, hl, hdl, hu,
                  uploadCallPaths_cons_list, uploadCallPaths_append, hdup] using hutr
        · have hrm0 : cfg.removeArtifacts = false := by
            cases hval : cfg.removeArtifacts
            · rfl
            · exact absurd hval hrm
          by_cases hrp : cfg.replacesArtifacts = true
          · cases hl : p.listAssets release.id with
            | error e => simp [handleAssetsRun, hart1, hU, hrm0, hrp, hl, uploadCallPaths]
            | ok assets =>
              rcases hdl : deleteAllLoop p cfg.artifactErrorsFailBuild
                  (assets.filter (fun a => memStr a.name
                    ((dedupFirst (expandArtifactPaths g fs (cfg.artifacts.getD ""))).map
                      basename))) with ⟨dr, dtr⟩
              have hdup : uploadCallPaths dtr = [] := by
                have := deleteAllLoop_no_uploads p cfg.artifactErrorsFailBuild
                  (assets.filter (fun a => memStr a.name
                    ((dedupFirst (expandArtifactPaths g fs (cfg.artifacts.getD ""))).map
                      basename)))
                rw [hdl] at this
                exact this
              cases dr with
              | error e =>
                simp [handleAssetsRun, hart1, hU, hrm0, hrp, hl, hdl,
                  uploadCallPaths_cons_list, hdup]
              | ok u0 =>
                cases ur with
                | ok up =>
                  simpa [handleAssetsRun, hart1, hU, hrm0, hrp, hl, hdl, hu,
                    uploadCallPaths_cons_list, uploadCallPaths_append, hdup] using hutr
                | error e =>
                  simpa [handleAssetsRun, hart1, hU, hrm0, hrp, hl, hdl, hu,
                    uploadCallPaths_cons_list, uploadCallPaths_append, hdup] using hutr
          · have hrp0 : cfg.replacesArtifacts = false := by
              cases hval : cfg.replacesArtifacts
              · rfl
              · exact absurd hval hrp
            cases ur with
            | ok up =>
              simpa [handleAssetsRun, hart1, hU, hrm0, hrp0, hu] using hutr
            | error e =>
              simpa [handleAssetsRun, hart1, hU, hrm0, hrp0, hu] using hutr
  · intro hrm0 hrp0 hart1 hall
    have hpaths : uploadCallPaths utr =
        dedupFirst (expandArtifactPaths g fs (cfg.artifacts.getD "")) := by
      have := uploadLoop_all_ok p fs cfg.artifactErrorsFailBuild
        cfg.artifactContentType release.id release.upload_url
        (dedupFirst (expandArtifactPaths g fs (cfg.artifacts.getD ""))) [] hall
      rw [hu] at this
      exact this
    by_cases hU : dedupFirst (expandArtifactPaths g fs (cfg.artifacts.getD "")) = []
    · simp [handleAssetsRun, hart1, hU, uploadCallPaths]
    · cases ur with
      | ok up =>
        simpa [handleAssetsRun, hart1, hU, hrm0, hrp0, hu] using hpaths
      | error e =>
        simpa [handleAssetsRun, hart1, hU, hrm0, hrp0, hu] using hpaths

/-- C8 witness: an overlapping artifacts specification evaluated
concretely — the duplicate resolution is uploaded once. -/
theorem c8_asset_dedup_witness :
    uploadCallPaths (handleAssetsRun pDummy fsAll gIdent cfgOverlap relExisting).2 =
      ["a.txt", "b.txt"] ∧
    (uploadCallPaths (handleAssetsRun pDummy fsAll gIdent cfgOverlap relExisting).2).Nodup :=
  have h := c8_asset_dedup pDummy fsAll gIdent cfgOverlap relExisting
  ⟨h.2 rfl rfl (by decide) (fun q _ => ⟨rfl, rfl, "https://dl/up", rfl⟩), h.1⟩

/-- C9: whenever handleAssets completes, every entry of the resulting
assets mapping is either an entry the release already carried (created
empty or discovered on the backend) or the name/URL pair of an upload the
provider accepted — a failed upload never contributes an entry, whatever
the artifactErrorsFailBuild setting. -/
theorem c9_assets_map_invariant (p : Provider) (fs : FileSystem) (g : GlobFn)
    (cfg : ActionInputs) (release : ReleaseResult) (r : ReleaseResult)
    (tr : List Event)
    (h : handleAssetsRun p fs g cfg release = (.ok r, tr)) :
    ∀ kv ∈ r.assets, kv ∈ release.assets ∨
      ∃ q, fs.existsSync q = true ∧ fs.isFile q = true ∧ kv.1 = basename q ∧
        p.uploadAsset release.id release.upload_url
          ⟨q, cfg.artifactContentType, some (basename q)⟩ = .ok kv.2 := by
  intro kv hkv
  by_cases hart : jsTruthy cfg.artifacts = false
  · simp only [handleAssetsRun, hart, if_true, Prod.mk.injEq] at h
    obtain ⟨h1, _⟩ := h
    cases h1
    exact Or.inl hkv
  · have hart1 : jsTruthy cfg.artifacts = true := by
      cases hval : jsTruthy cfg.artifacts
      · exact absurd hval hart
      · rfl
    by_cases hU : dedupFirst (expandArtifactPaths g fs (cfg.artifacts.getD "")) = []
    · simp only [handleAssetsRun, hart1, Bool.true_eq_false, if_false, hU, if_true,
        Prod.mk.injEq] at h
      obtain ⟨h1, _⟩ := h
      cases h1
      exact Or.inl hkv
    · rcases hu : uploadLoop p fs cfg.artifactErrorsFailBuild cfg.artifactContentType
          release.id release.upload_url []
          (dedupFirst (expandArtifactPaths g fs (cfg.artifacts.getD "")))
        with ⟨ur, utr⟩
      have hfromUp : ∀ up, ur = .ok up → r.assets = recordMerge release.assets up →
          kv ∈ release.assets ∨
          ∃ q, fs.existsSync q = true ∧ fs.isFile q = true ∧ kv.1 = basename q ∧
            p.uploadAsset release.id release.upload_url
              ⟨q, cfg.artifactContentType, some (basename q)⟩ = .ok kv.2 := by
        intro up hur hassets
        rw [hassets] at hkv
        rcases recordMerge_mem up release.assets kv hkv with hold | hnew
        · exact Or.inl hold
        · rw [hur] at hu
          rcases uploadLoop_ok_mem p fs cfg.artifactErrorsFailBuild
              cfg.artifactContentType release.id release.upload_url
              (dedupFirst (expandArtifactPaths g fs (cfg.artifacts.getD "")))
              [] up utr hu kv hnew with hnil | ⟨q, _, hq⟩
          · exact absurd hnil (List.not_mem_nil kv)
          · exact Or.inr ⟨q, hq⟩
      by_cases hrm : cfg.removeArtifacts = true
      · cases hl : p.listAssets release.id with
        | error e => simp [handleAssetsRun, hart1, hU, hrm, hl] at h
        | ok assets =>
          rcases hdl : deleteAllLoop p cfg.artifactErrorsFailBuild assets with ⟨dr, dtr⟩
          cases dr with
          | error e => simp [handleAssetsRun, hart1, hU, hrm, hl, hdl] at h
          | ok u0 =>
            cases ur with
            | error e => simp [handleAssetsRun, hart1, hU, hrm, hl, hdl, hu] at h
            | ok up =>
              have h2 := h
              simp only [handleAssetsRun, hart1, Bool.true_eq_false, if_false, hU,
                hrm, if_true, hl, hdl, hu, Prod.mk.injEq] at h2
              obtain ⟨h3, _⟩ := h2
              have h4 := Except.ok.inj h3
              exact hfromUp up rfl (by rw [← h4])
      · have hrm0 : cfg.removeArtifacts = false := by
          cases hval : cfg.removeArtifacts
          · rfl
          · exact absurd hval hrm
        by_cases hrp : cfg.replacesArtifacts = true
        · cases hl : p.listAssets release.id with
          | error e => simp [handleAssetsRun, hart1, hU, hrm0, hrp, hl] at h
          | ok assets =>
            rcases hdl : deleteAllLoop p cfg.artifactErrorsFailBuild
                (assets.filter (fun a => memStr a.name
                  ((dedupFirst (expandArtifactPaths g fs (cfg.artifacts.getD ""))).map
                    basename))) with ⟨dr, dtr⟩
            cases dr with
            | error e => simp [handleAssetsRun, hart1, hU, hrm0, hrp, hl, hdl] at h
            | ok u0 =>
              cases ur with
              | error e => simp [handleAssetsRun, hart1, hU, hrm0, hrp, hl, hdl, hu] at h
              | ok up =>
                have h2 := h
                simp only [handleAssetsRun, hart1, Bool.true_eq_false,
                  Bool.false_eq_true, if_false, hU, hrm0, hrp, if_true, hl, hdl, hu,
                  Prod.mk.injEq] at h2
                obtain ⟨h3, _⟩ := h2
                have h4 := Except.ok.inj h3
                exact hfromUp up rfl (by rw [← h4])
        · have hrp0 : cfg.replacesArtifacts = false := by
            cases hval : cfg.replacesArtifacts
            · rfl
            · exact absurd hval hrp
          cases ur with
          | error e => simp [handleAssetsRun, hart1, hU, hrm0, hrp0, hu] at h
          | ok up =>
            have h2 := h
            simp only [handleAssetsRun, hart1, Bool.true_eq_false,
              Bool.false_eq_true, if_false, hU, hrm0, hrp0, hu, Prod.mk.injEq] at h2
            obtain ⟨h3, _⟩ := h2
            have h4 := Except.ok.inj h3
            exact hfromUp up rfl (by rw [← h4])

/-- C9 witness: a concrete single-upload run — the new entry is the
successful upload and the old entry was already on the release. -/
theorem c9_assets_map_invariant_witness :
    ("a.txt", "https://dl/up") ∈ relExisting.assets ∨
      ∃ q, fsAll.existsSync q = true ∧ fsAll.isFile q = true ∧
        "a.txt" = basename q ∧
        pDummy.uploadAsset "77" "https://example/upload/77"
          ⟨q, none, some (basename q)⟩ = .ok "https://dl/up" :=
  c9_assets_map_invariant pDummy fsAll gIdent cfgOneAsset relExisting relUploaded
    trUploaded rfl ("a.txt", "https://dl/up") (by decide)

end GAR
